import Mathlib

/-!
# elastic-filter-query: filter-expression compiler

A shallow embedding of `filter.go` and `query.go` (package `es_filter_query`).

* A Go `string` is a list of characters. Every string operation the package
  performs (`strings.HasPrefix`, `strings.HasSuffix`, `strings.TrimLeft`,
  `strings.TrimRight`, `strings.Trim`, `==`) is used with ASCII arguments or as a
  whole-string comparison, so it acts the same on characters as on bytes.
* `url.Values` is a Go map ranged over in an unspecified order; it is a list of
  `(name, values)` entries, the list order being the order in which the `range`
  loop visits the keys.
* `FilterMap` and `FilterAggs` are Go maps: partial functions from names to filters and
  from field names to aggregations.
* Builder objects of `gopkg.in/olivere/elastic.v5` are records of the fields the
  package sets; a builder call returns the updated record.
* `time.Parse` and `Time.String` belong to the Go standard library and are taken
  as parameters (`TimePkg`); a `Time` is an instant together with its location.
* A call ends by returning `nil`, by returning an error, or by a run-time panic
  (failed type assertion `value.(time.Time)`).
-/

namespace EsFilterQuery

/-- Go `string`. -/
abbrev GoString := List Char

instance : Coe String GoString := ⟨String.toList⟩

namespace strings

/-- Go `strings.HasPrefix(s, pre)`. -/
def HasPrefix (s pre : GoString) : Bool := pre.isPrefixOf s

/-- Go `strings.HasSuffix(s, suf)`. -/
def HasSuffix (s suf : GoString) : Bool := suf.isSuffixOf s

/-- Go `strings.TrimLeft(s, cutset)`: drops every leading character contained in `cutset`. -/
def TrimLeft (s cutset : GoString) : GoString := s.dropWhile (fun c => decide (c ∈ cutset))

/-- Go `strings.TrimRight(s, cutset)`: drops every trailing character contained in `cutset`. -/
def TrimRight (s cutset : GoString) : GoString :=
  (s.reverse.dropWhile (fun c => decide (c ∈ cutset))).reverse

/-- Go `strings.Trim(s, cutset)`: drops leading and trailing characters contained in `cutset`. -/
def Trim (s cutset : GoString) : GoString := TrimRight (TrimLeft s cutset) cutset

end strings

/-! ## filter.go -/

/-- Go `type Facet struct` (the `XMLName` tag field carries no data used by the package). -/
structure Facet where
  ID : GoString := []
  Label : GoString := []
  Query : GoString := []
  Count : Int := 0
deriving DecidableEq, Repr

/-- Go `type Filter struct`; the defaults are Go zero values. -/
structure Filter where
  ID : GoString := []
  Label : GoString := []
  Selection : GoString := []
  Logic : GoString := []
  Field : GoString := []
  Static : Bool := false
  Facets : List Facet := []
  Format : GoString := []
deriving DecidableEq, Repr

/-- Go `type FilterGroup struct`. -/
structure FilterGroup where
  Label : GoString := []
  Class : GoString := []
  Filters : List Filter := []
deriving DecidableEq, Repr

/-- Go `type FilterMap map[string]Filter`: `none` is an absent key. -/
abbrev FilterMap := GoString → Option Filter

/-- Method `(f *FilterGroup) GetFilter(fieldName)`: the first filter of the group with that
field, `Filter{}` when the loop ends without a match. -/
def FilterGroup.GetFilter (f : FilterGroup) (fieldName : GoString) : Filter :=
  match f.Filters.find? (fun fil => decide (fil.Field = fieldName)) with
  | some fil => fil
  | none => {}

/-- Method `(f *FilterGroup) ReplaceFilter(filter)`: the loop stores `filter` at every index
whose entry has the same `Field`. -/
def FilterGroup.ReplaceFilter (f : FilterGroup) (filter : Filter) : FilterGroup :=
  { f with Filters := f.Filters.map (fun fil => if fil.Field = filter.Field then filter else fil) }

/-- Method `(f *Filter) GetFacet(label)`: the first facet with that label, `Facet{}` when the
loop ends without a match. -/
def Filter.GetFacet (f : Filter) (label : GoString) : Facet :=
  match f.Facets.find? (fun facet => decide (facet.Label = label)) with
  | some facet => facet
  | none => {}

/-! ## Standard library and elastic.v5 values -/

/-- The location that a Go `time.Time` returned by `time.Parse` carries: `time.UTC` (also the
location of the zero `Time`), `time.Local`, or a location fabricated from a zone name and an
offset in seconds east of UTC. -/
inductive Location where
  | UTC
  | Local
  | fixed (name : GoString) (offset : Int)
deriving DecidableEq, Repr

/-- Go `time.Time`: the instant it denotes, in nanoseconds elapsed since the zero `Time`
(January 1, year 1, 00:00:00 UTC), and the location it carries. Two values of one instant
in different locations are different values and print differently. -/
structure Time where
  nsec : Int
  loc : Location
deriving DecidableEq, Repr

/-- Go `time.Hour`, a `Duration` in nanoseconds. -/
def Hour : Int := 3600 * 1000000000

/-- Go `Time.Add(d)`: the instant moves by `d`, the location is kept. -/
def Time.Add (t : Time) (d : Int) : Time := ⟨t.nsec + d, t.loc⟩

/-- Go `Time.UTC()`: the same instant with the location set to UTC. `BuildFilterQuery` calls
it on line 72 and drops the result, so the slot keeps the `Time` as parsed. -/
def Time.UTC (t : Time) : Time := ⟨t.nsec, .UTC⟩

/-- The parts of Go package `time` that `BuildFilterQuery` calls.
`Parse layout value` is `time.Parse`: the `(Time, error)` pair it returns, the error being
`none` for `nil`. `String t` is `t.String()`, which `fmt.Sprintf("%s", t)` prints; it
depends on the instant and on the location. -/
structure TimePkg where
  Parse : GoString → GoString → Time × Option GoString
  String : Time → GoString

/-- The dynamically typed slot `var value interface{}` of `BuildFilterQuery`: the trimmed
string, or the `time.Time` obtained from `time.Parse`. -/
inductive Value where
  | str (s : GoString)
  | time (t : Time)
deriving DecidableEq, Repr

/-- Go `elastic.RangeQuery`: the fields `name`, `from`, `to`, `includeLower`, `includeUpper`
(written `from_`, `to_`; a `nil` bound is `none`). -/
structure RangeQuery where
  name : GoString
  from_ : Option Value := none
  to_ : Option Value := none
  includeLower : Bool := true
  includeUpper : Bool := true
deriving DecidableEq, Repr

/-- Go `elastic.NewRangeQuery(name)`: `&RangeQuery{name: name, includeLower: true,
includeUpper: true}`. -/
def NewRangeQuery (name : GoString) : RangeQuery :=
  { name := name, includeLower := true, includeUpper := true }

/-- Go `(*RangeQuery).From(from)`: sets `from` only. -/
def RangeQuery.From (q : RangeQuery) (v : Value) : RangeQuery := { q with from_ := some v }

/-- Go `(*RangeQuery).To(to)`: sets `to` only. -/
def RangeQuery.To (q : RangeQuery) (v : Value) : RangeQuery := { q with to_ := some v }

/-- Go `(*RangeQuery).Gte(from)`: sets `from` and `includeLower = true`. -/
def RangeQuery.Gte (q : RangeQuery) (v : Value) : RangeQuery :=
  { q with from_ := some v, includeLower := true }

/-- Go `(*RangeQuery).Lte(to)`: sets `to` and `includeUpper = true`. -/
def RangeQuery.Lte (q : RangeQuery) (v : Value) : RangeQuery :=
  { q with to_ := some v, includeUpper := true }

/-- The value-level `elastic.Query` objects built by `BuildFilterQuery`:
`NewTermQuery(name, value)`, `NewWildcardQuery(name, wildcard)`,
`NewRegexpQuery(name, regexp)` and range queries. -/
inductive Query where
  | term (name : GoString) (value : Value)
  | wildcard (name : GoString) (wildcard : GoString)
  | regexp (name : GoString) (regexp : GoString)
  | range (q : RangeQuery)
deriving DecidableEq, Repr

/-- Go `elastic.BoolQuery` with clauses of type `Q`: the four clause lists and the query name.
`elastic.NewBoolQuery()` is the default value. -/
structure BoolQuery (Q : Type) where
  mustClauses : List Q := []
  mustNotClauses : List Q := []
  filterClauses : List Q := []
  shouldClauses : List Q := []
  queryName : GoString := []
deriving DecidableEq, Repr

/-- Go `(*BoolQuery).Must(query)`: appends to the MUST list. -/
def BoolQuery.Must {Q : Type} (b : BoolQuery Q) (q : Q) : BoolQuery Q :=
  { b with mustClauses := b.mustClauses ++ [q] }

/-- Go `(*BoolQuery).MustNot(query)`: appends to the MUST-NOT list. -/
def BoolQuery.MustNot {Q : Type} (b : BoolQuery Q) (q : Q) : BoolQuery Q :=
  { b with mustNotClauses := b.mustNotClauses ++ [q] }

/-- Go `(*BoolQuery).Should(query)`: appends to the SHOULD list. -/
def BoolQuery.Should {Q : Type} (b : BoolQuery Q) (q : Q) : BoolQuery Q :=
  { b with shouldClauses := b.shouldClauses ++ [q] }

/-- Go `(*BoolQuery).Filter(query)`: appends to the filter (required, non-scoring) list. -/
def BoolQuery.Filter {Q : Type} (b : BoolQuery Q) (q : Q) : BoolQuery Q :=
  { b with filterClauses := b.filterClauses ++ [q] }

/-- Go `(*BoolQuery).QueryName(name)`. -/
def BoolQuery.QueryName {Q : Type} (b : BoolQuery Q) (name : GoString) : BoolQuery Q :=
  { b with queryName := name }

/-- The boolean sub-query `filterQuery` built for one parameter. -/
abbrev FilterQuery := BoolQuery Query

/-- The accumulator `searchFilter`; `BuildFilterQuery` adds `FilterQuery` clauses to it. -/
abbrev SearchFilter := BoolQuery FilterQuery

/-! ## query.go -/

/-- How a block of `BuildFilterQuery` ends: it completes with a value, executes
`return fmt.Errorf(...)`, or panics on a failed type assertion. -/
inductive Step (α : Type) where
  | ok (a : α)
  | error (msg : GoString)
  | panic
deriving DecidableEq, Repr

/-- Applies `f` to the value of a completed step. -/
def Step.map {α β : Type} (f : α → β) : Step α → Step β
  | .ok a => .ok (f a)
  | .error msg => .error msg
  | .panic => .panic

/-- How a call of `BuildFilterQuery` ends: `err == nil`, `err != nil` with its message, or a
panic. -/
inductive Outcome where
  | nil
  | err (msg : GoString)
  | panic
deriving DecidableEq, Repr

/-- Go `fmt.Sprintf("%s", value)` for the slot `value`: the string itself, or `Time.String()`. -/
def sprintS (tp : TimePkg) : Value → GoString
  | .str s => s
  | .time t => tp.String t

/-- Go `createDateQuery(field, date)`:
`NewRangeQuery(field).From(date).To(date.Add(24 * time.Hour))`. -/
def createDateQuery (field : GoString) (date : Time) : Query :=
  .range (((NewRangeQuery field).From (.time date)).To (.time (date.Add (24 * Hour))))

/-- Go `buildCustomQuery(name)`. The function assigns the fields `Logic`, `Selection`,
`Format` and `Field` of its result and reassigns `name`. Each `if` block of the source is
its condition followed by the rebinding of the variables the block assigns; the result is
the `Filter` with the four fields set. -/
def buildCustomQuery (name : GoString) : Filter :=
  let Logic : GoString := "or"
  let Selection : GoString := "multi"
  let Format : GoString := []
  -- if strings.HasPrefix(name, "+")
  let c := strings.HasPrefix name "+"
  let Logic : GoString := if c then "and" else Logic
  let name := if c then strings.TrimLeft name "+" else name
  -- if strings.HasSuffix(name, "<")
  let c := strings.HasSuffix name "<"
  let Selection : GoString := if c then "lte" else Selection
  let name := if c then strings.TrimRight name "<" else name
  -- if strings.HasSuffix(name, ">")
  let c := strings.HasSuffix name ">"
  let Selection : GoString := if c then "gte" else Selection
  let name := if c then strings.TrimRight name ">" else name
  -- if strings.HasSuffix(name, "~")
  let c := strings.HasSuffix name "~"
  let Selection : GoString := if c then "regex" else Selection
  let name := if c then strings.TrimRight name "~" else name
  -- if strings.HasSuffix(name, "?")
  let c := strings.HasSuffix name "?"
  let Selection : GoString := if c then "wildcard" else Selection
  let name := if c then strings.TrimRight name "?" else name
  -- if strings.HasSuffix(name, "_date")
  let Format : GoString := if strings.HasSuffix name "_date" then "2006-01-02" else Format
  -- if strings.HasSuffix(name, "_datetime")
  let Format : GoString :=
    if strings.HasSuffix name "_datetime" then "01/02/2006 15:04:05 MST" else Format
  { Logic := Logic, Selection := Selection, Format := Format, Field := name }

/-- Go `applyQueryLogic(filter, filterQuery, query, invert)`. -/
def applyQueryLogic (filter : Filter) (filterQuery : FilterQuery) (query : Query)
    (invert : Bool) : FilterQuery :=
  if !invert then
    if filter.Logic = "or" then filterQuery.Should query
    else if filter.Logic = "and" then filterQuery.Must query
    else filterQuery.Must query
  else filterQuery.MustNot query

/-- Lines 68-94 of `BuildFilterQuery`: the query built for one trimmed, non-empty value `val`.
With a non-empty `Format` the slot holds the `Time` returned by `time.Parse`, whose error is
assigned to `_` (the result of `.UTC()` on the next line is not stored). The `date` case
asserts `value.(time.Time)`, which panics when the slot holds a string. -/
def BuildFilterQuery_value (tp : TimePkg) (filter : Filter) (val : GoString) : Step Query :=
  let value : Value :=
    if filter.Format ≠ [] then .time (tp.Parse filter.Format val).1 else .str val
  if filter.Selection = "multi" then .ok (.term filter.Field value)
  else if filter.Selection = "date" then
    match value with
    | .time t => .ok (createDateQuery filter.Field t)
    | .str _ => .panic
  else if filter.Selection = "text" then .ok (.term filter.Field value)
  else if filter.Selection = "wildcard" then
    .ok (.wildcard filter.Field (("*" : GoString) ++ sprintS tp value ++ ("*" : GoString)))
  else if filter.Selection = "regex" then .ok (.regexp filter.Field (sprintS tp value))
  else if filter.Selection = "lte" then .ok (.range ((NewRangeQuery filter.Field).Lte value))
  else if filter.Selection = "gte" then .ok (.range ((NewRangeQuery filter.Field).Gte value))
  else .error (("Unknown Selection: " : GoString) ++ filter.Selection)

/-- Lines 63-97 of `BuildFilterQuery`: the loop over the values of one parameter, threading
the sub-query `filterQuery`. -/
def BuildFilterQuery_values (tp : TimePkg) (filter : Filter) (invert : Bool) :
    List GoString → FilterQuery → Step FilterQuery
  | [], filterQuery => .ok filterQuery
  | val :: rest, filterQuery =>
    let val := strings.Trim val " "
    if val = [] then BuildFilterQuery_values tp filter invert rest filterQuery
    else
      match BuildFilterQuery_value tp filter val with
      | .ok query =>
        BuildFilterQuery_values tp filter invert rest
          (applyQueryLogic filter filterQuery query invert)
      | .error msg => .error msg
      | .panic => .panic

/-- Lines 46-58 of `BuildFilterQuery`: the `invert` flag, the name after
`strings.TrimLeft(name, "!")`, and the filter looked up in the catalog or built by
`buildCustomQuery`. -/
def BuildFilterQuery_resolve (filterMap : FilterMap) (name : GoString) :
    Bool × GoString × Filter :=
  let (invert, name) :=
    if strings.HasPrefix name "!" then (true, strings.TrimLeft name "!") else (false, name)
  let filter : Filter :=
    match filterMap name with
    | some filter => filter
    | none => buildCustomQuery name
  (invert, name, filter)

/-- Lines 46-97 of `BuildFilterQuery`: the sub-query `filterQuery` of one parameter, as it
stands when the loop over its values ends. -/
def BuildFilterQuery_param (tp : TimePkg) (filterMap : FilterMap) (name : GoString)
    (values : List GoString) : Step FilterQuery :=
  let (invert, name, filter) := BuildFilterQuery_resolve filterMap name
  let filterQuery : FilterQuery := ({} : FilterQuery).QueryName name
  BuildFilterQuery_values tp filter invert values filterQuery

/-- Go `BuildFilterQuery(searchFilter, filters, filterMap)`: the accumulator as the call
leaves it, and how the call ends. -/
def BuildFilterQuery (tp : TimePkg) :
    SearchFilter → List (GoString × List GoString) → FilterMap → SearchFilter × Outcome
  | searchFilter, [], _ => (searchFilter, .nil)
  | searchFilter, (name, values) :: rest, filterMap =>
    if values.length = 0 then BuildFilterQuery tp searchFilter rest filterMap
    else
      match BuildFilterQuery_param tp filterMap name values with
      | .ok filterQuery => BuildFilterQuery tp (searchFilter.Filter filterQuery) rest filterMap
      | .error msg => (searchFilter, .err msg)
      | .panic => (searchFilter, .panic)

/-! ## Concrete fixtures -/

/-- A sample `TimePkg`. Its `Parse` knows the layout `2006-01-02` on the value `2017-01-27`
(736355 days after the zero `Time`, in UTC) and the layout `01/02/2006 15:04:05 MST` on the
values `01/27/2017 00:00:00 UTC` and `01/27/2017 00:00:00 MST` (the same instant, the second
in the location fabricated for the abbreviation `MST` with offset 0); on anything else it
reports an error with the zero `Time`. Its `String` prints these `Time`s as Go does. -/
def sampleTime : TimePkg where
  Parse := fun layout value =>
    if layout = ("2006-01-02" : GoString) ∧ value = ("2017-01-27" : GoString) then
      (⟨736355 * 24 * Hour, .UTC⟩, none)
    else if layout = ("01/02/2006 15:04:05 MST" : GoString) ∧
        value = ("01/27/2017 00:00:00 UTC" : GoString) then
      (⟨736355 * 24 * Hour, .UTC⟩, none)
    else if layout = ("01/02/2006 15:04:05 MST" : GoString) ∧
        value = ("01/27/2017 00:00:00 MST" : GoString) then
      (⟨736355 * 24 * Hour, .fixed "MST" 0⟩, none)
    else (⟨0, .UTC⟩, some ("parsing time: cannot parse" : GoString))
  String := fun t =>
    if t = ⟨736355 * 24 * Hour, .UTC⟩ then ("2017-01-27 00:00:00 +0000 UTC" : GoString)
    else if t = ⟨736355 * 24 * Hour, .fixed "MST" 0⟩ then
      ("2017-01-27 00:00:00 +0000 MST" : GoString)
    else ("0001-01-01 00:00:00 +0000 UTC" : GoString)

/-- The value-level queries of one parameter, in the order of its values (lines 63-94 of
`BuildFilterQuery` without the accumulation into `filterQuery`): each value is trimmed, a
value that is empty after trimming is skipped, and the loop stops at the first value whose
query is not built, with its error or panic. -/
def valueQueries (tp : TimePkg) (filter : Filter) : List GoString → Step (List Query)
  | [] => .ok []
  | val :: rest =>
    if strings.Trim val " " = [] then valueQueries tp filter rest
    else
      match BuildFilterQuery_value tp filter (strings.Trim val " ") with
      | .ok query => (valueQueries tp filter rest).map (fun qs => query :: qs)
      | .error msg => .error msg
      | .panic => .panic

/-- The case labels of the `switch filter.Selection` of `BuildFilterQuery`. -/
def supportedSelections : List GoString :=
  [("multi" : GoString), "date", "text", "wildcard", "regex", "lte", "gte"]

/-- A parameter on which the `default` case of the switch is reached: one of its values is
non-empty after trimming, and the filter it resolves to has a `Selection` that is no case
label. -/
def reachesDefault (filterMap : FilterMap) (p : GoString × List GoString) : Bool :=
  p.2.any (fun v => decide (strings.Trim v " " ≠ [])) &&
    decide ((BuildFilterQuery_resolve filterMap p.1).2.2.Selection ∉ supportedSelections)

/-- A sample catalog with four entries: `status` (multi, and), `level` (multi, with the
unrecognized logic `xor`), `end_date` (date with the layout `2006-01-02`) and `kind`
(selection `single`). -/
def sampleCatalog : FilterMap := fun name =>
  if name = ("status" : GoString) then
    some { Selection := "multi", Logic := "and", Field := "status" }
  else if name = ("level" : GoString) then
    some { Selection := "multi", Logic := "xor", Field := "level" }
  else if name = ("end_date" : GoString) then
    some { Selection := "date", Logic := "or", Field := "end_date", Format := "2006-01-02" }
  else if name = ("kind" : GoString) then
    some { Selection := "single", Logic := "or", Field := "kind" }
  else none

/-- The empty catalog. -/
def emptyCatalog : FilterMap := fun _ => none

/-! ## Aggregations -/

/-- Go `elastic.TermsAggregation`: the fields `field` and `size` (a `*int`; `nil` is
`none`). `elastic.NewTermsAggregation()` is the default value. -/
structure TermsAggregation where
  field : GoString := []
  size : Option Int := none
deriving DecidableEq, Repr

/-- Go `elastic.NewTermsAggregation()`. -/
def NewTermsAggregation : TermsAggregation := {}

/-- Go `(*TermsAggregation).Field(field)`. -/
def TermsAggregation.Field (a : TermsAggregation) (field : GoString) : TermsAggregation :=
  { a with field := field }

/-- Go `(*TermsAggregation).Size(size)`: stores the address of `size`. -/
def TermsAggregation.Size (a : TermsAggregation) (size : Int) : TermsAggregation :=
  { a with size := some size }

/-- Go `type FilterAggs map[string]elastic.Aggregation`: `none` is an absent key. The only
aggregations the package stores are terms aggregations. -/
abbrev FilterAggs := GoString → Option TermsAggregation

/-- Go `BuildAggregationQuery(fg)`: the map `ag` after the two nested loops, and the error
`err`, which no statement assigns (`none` is `nil`). `ag[filter.Field] = ...` overwrites
the entry of that key. -/
def BuildAggregationQuery (fg : List FilterGroup) : FilterAggs × Option GoString :=
  let ag : FilterAggs := fun _ => none
  let ag : FilterAggs :=
    fg.foldl (fun ag group =>
      group.Filters.foldl (fun ag filter =>
        if filter.Static = true ∨
            (filter.Selection ≠ ("multi" : GoString) ∧
              filter.Selection ≠ ("single" : GoString)) then ag
        else
          fun k =>
            if k = filter.Field then
              some ((NewTermsAggregation.Field filter.Field).Size 0)
            else ag k) ag) ag
  (ag, none)

/-! ## The run of BuildFilterQuery over the parameters -/

/-- The sub-queries that `BuildFilterQuery` adds to the accumulator, in processing order, and
how the call ends: a parameter without values is skipped, a parameter whose sub-query is
built contributes it, and the first parameter whose sub-query is not built ends the call
with its error or panic, after the sub-queries of the parameters before it. -/
def subQueries (tp : TimePkg) (filterMap : FilterMap) :
    List (GoString × List GoString) → List FilterQuery × Outcome
  | [] => ([], .nil)
  | (name, values) :: rest =>
    if values = [] then subQueries tp filterMap rest
    else
      match BuildFilterQuery_param tp filterMap name values with
      | .ok filterQuery =>
        (filterQuery :: (subQueries tp filterMap rest).1, (subQueries tp filterMap rest).2)
      | .error msg => ([], .err msg)
      | .panic => ([], .panic)

/-- A catalog whose only entry, `day`, has the selection `date` and no `Format`. -/
def plainDateCatalog : FilterMap := fun name =>
  if name = ("day" : GoString) then some { Selection := "date", Logic := "or", Field := "day" }
  else none

/-- A group with two filters on the field `status` and one on `kind`. -/
def sampleGroup : FilterGroup :=
  { Label := "Run", Class := "run",
    Filters :=
      [{ ID := "s1", Selection := "multi", Logic := "or", Field := "status" },
       { ID := "k1", Selection := "single", Logic := "or", Field := "kind" },
       { ID := "s2", Selection := "text", Logic := "and", Field := "status", Static := true }] }

/-! ## Strings: prefixes, suffixes and trimming of one character -/

theorem hasPrefix_singleton (c : Char) (s : GoString) :
    strings.HasPrefix s [c] = true ↔ s.head? = some c := by
  cases s with
  | nil => simp [strings.HasPrefix, List.isPrefixOf]
  | cons a t =>
    simp only [strings.HasPrefix, List.isPrefixOf, List.head?_cons, Option.some.injEq,
      Bool.and_true, beq_iff_eq]
    exact eq_comm

theorem hasSuffix_singleton (c : Char) (s : GoString) :
    strings.HasSuffix s [c] = true ↔ s.getLast? = some c := by
  unfold strings.HasSuffix List.isSuffixOf
  have h := hasPrefix_singleton c s.reverse
  unfold strings.HasPrefix at h
  simpa [List.head?_reverse] using h

theorem trimLeft_singleton (c : Char) (s : GoString) :
    ∃ k, s = List.replicate k c ++ strings.TrimLeft s [c] ∧
      (0 < k ↔ strings.HasPrefix s [c] = true) ∧
      (strings.TrimLeft s [c]).head? ≠ some c := by
  induction s with
  | nil => exact ⟨0, by simp [strings.TrimLeft, hasPrefix_singleton]⟩
  | cons a t ih =>
    by_cases h : a = c
    · obtain ⟨k, hk, -, hh⟩ := ih
      refine ⟨k + 1, ?_, ?_, ?_⟩
      · simp only [strings.TrimLeft, List.mem_singleton] at hk ⊢
        simp [h, List.replicate_succ, ← hk]
      · simp [hasPrefix_singleton, h]
      · simpa [strings.TrimLeft, h] using hh
    · refine ⟨0, ?_, ?_, ?_⟩
      · simp [strings.TrimLeft, h]
      · simp [hasPrefix_singleton, h]
      · simp [strings.TrimLeft, h]

theorem trimRight_singleton (c : Char) (s : GoString) :
    ∃ k, s = strings.TrimRight s [c] ++ List.replicate k c ∧
      (0 < k ↔ strings.HasSuffix s [c] = true) ∧
      (strings.TrimRight s [c]).getLast? ≠ some c := by
  obtain ⟨k, hk, hpos, hh⟩ := trimLeft_singleton c s.reverse
  refine ⟨k, ?_, ?_, ?_⟩
  · have := congrArg List.reverse hk
    simpa [strings.TrimRight, strings.TrimLeft] using this
  · rw [hpos, hasPrefix_singleton, hasSuffix_singleton, List.head?_reverse]
  · simpa [strings.TrimRight, strings.TrimLeft, List.getLast?_reverse] using hh

/-- The `+` block: the name it leaves is the input without its leading run of `c`, and it
does not begin with `c`. -/
theorem block_left (c : Char) (s n : GoString)
    (e : n = if strings.HasPrefix s [c] then strings.TrimLeft s [c] else s) :
    ∃ k, s = List.replicate k c ++ n ∧ (0 < k ↔ strings.HasPrefix s [c] = true) ∧
      n.head? ≠ some c := by
  obtain ⟨k, hk, hpos, hh⟩ := trimLeft_singleton c s
  by_cases h : strings.HasPrefix s [c] = true
  · rw [if_pos h] at e
    exact ⟨k, e ▸ hk, hpos, e ▸ hh⟩
  · rw [if_neg h] at e
    refine ⟨0, by simp [e], by simp [h], ?_⟩
    rw [e]
    exact fun hs => h ((hasPrefix_singleton c s).mpr hs)

/-- A suffix block: the name it leaves is the input without its trailing run of `c`, and it
does not end with `c`. -/
theorem block_right (c : Char) (s n : GoString)
    (e : n = if strings.HasSuffix s [c] then strings.TrimRight s [c] else s) :
    ∃ k, s = n ++ List.replicate k c ∧ (0 < k ↔ strings.HasSuffix s [c] = true) ∧
      n.getLast? ≠ some c := by
  obtain ⟨k, hk, hpos, hh⟩ := trimRight_singleton c s
  by_cases h : strings.HasSuffix s [c] = true
  · rw [if_pos h] at e
    exact ⟨k, e ▸ hk, hpos, e ▸ hh⟩
  · rw [if_neg h] at e
    refine ⟨0, by simp [e], by simp [h], ?_⟩
    rw [e]
    exact fun hs => h ((hasSuffix_singleton c s).mpr hs)

/-- No string ends with both `_date` and `_datetime`. -/
theorem not_date_and_datetime (s : GoString)
    (h1 : strings.HasSuffix s "_date" = true) (h2 : strings.HasSuffix s "_datetime" = true) :
    False := by
  unfold strings.HasSuffix List.isSuffixOf at h1 h2
  have r1 : (("_date" : GoString)).reverse = ['e', 't', 'a', 'd', '_'] := by decide
  have r2 : (("_datetime" : GoString)).reverse =
      ['e', 'm', 'i', 't', 'e', 't', 'a', 'd', '_'] := by decide
  rw [r1] at h1
  rw [r2] at h2
  rcases hs : s.reverse with _ | ⟨a, _ | ⟨b, t⟩⟩ <;> rw [hs] at h1 h2 <;>
    simp [List.isPrefixOf] at h1 h2
  obtain ⟨-, hb, -⟩ := h1
  obtain ⟨-, hb2, -⟩ := h2
  rw [← hb] at hb2
  revert hb2
  decide

theorem trimLeft_replicate_append (c : Char) (k : Nat) (s : GoString)
    (h : s.head? ≠ some c) : strings.TrimLeft (List.replicate k c ++ s) [c] = s := by
  induction k with
  | zero =>
    cases s with
    | nil => rfl
    | cons a t =>
      have hne : a ≠ c := fun e => h (by rw [e]; rfl)
      simp [strings.TrimLeft, hne]
  | succ k ih =>
    simp only [strings.TrimLeft, List.mem_singleton] at ih ⊢
    simp [List.replicate_succ, ih]

/-- The `+` block on a run of `c` followed by a string that does not begin with `c`. -/
theorem block_left_replicate (c : Char) (k : Nat) (s : GoString) (h : s.head? ≠ some c) :
    (if strings.HasPrefix (List.replicate k c ++ s) [c] then
      strings.TrimLeft (List.replicate k c ++ s) [c]
     else List.replicate k c ++ s) = s := by
  by_cases hp : strings.HasPrefix (List.replicate k c ++ s) [c] = true
  · rw [if_pos hp]
    exact trimLeft_replicate_append c k s h
  · rw [if_neg hp]
    cases k with
    | zero => simp
    | succ k =>
      exfalso
      apply hp
      rw [hasPrefix_singleton]
      simp [List.replicate_succ]

/-- A suffix block on a string that does not end with `c` followed by a run of `c`. -/
theorem block_right_replicate (c : Char) (k : Nat) (s : GoString)
    (h : s.getLast? ≠ some c) :
    (if strings.HasSuffix (s ++ List.replicate k c) [c] then
      strings.TrimRight (s ++ List.replicate k c) [c]
     else s ++ List.replicate k c) = s := by
  have hrev : (s.reverse).head? ≠ some c := by
    rw [List.head?_reverse]
    exact h
  by_cases hp : strings.HasSuffix (s ++ List.replicate k c) [c] = true
  · rw [if_pos hp]
    have := trimLeft_replicate_append c k s.reverse hrev
    unfold strings.TrimLeft at this
    unfold strings.TrimRight
    rw [List.reverse_append, List.reverse_replicate, this, List.reverse_reverse]
  · rw [if_neg hp]
    cases k with
    | zero => simp
    | succ k =>
      exfalso
      apply hp
      rw [hasSuffix_singleton]
      simp [List.replicate_succ']

/-- A string none of whose characters is `c` does not end with `c`. -/
theorem getLast?_ne_of_forall_ne (c : Char) (s : GoString) (h : ∀ x ∈ s, x ≠ c) :
    s.getLast? ≠ some c := by
  intro hl
  exact h c (List.mem_of_getLast?_eq_some hl) rfl

/-- A string none of whose characters is `c` does not begin with `c`. -/
theorem head?_ne_of_forall_ne (c : Char) (s : GoString) (h : ∀ x ∈ s, x ≠ c) :
    s.head? ≠ some c := by
  intro hl
  exact h c (List.mem_of_mem_head? hl) rfl

/-! ## buildCustomQuery in closed form -/

/-- The result of `buildCustomQuery`, over the names `n0` .. `n4` left by the `+` block and
by the `<`, `>`, `~`, `?` blocks. -/
theorem buildCustomQuery_eq (name n0 n1 n2 n3 n4 : GoString)
    (e0 : n0 = if strings.HasPrefix name "+" then strings.TrimLeft name "+" else name)
    (e1 : n1 = if strings.HasSuffix n0 "<" then strings.TrimRight n0 "<" else n0)
    (e2 : n2 = if strings.HasSuffix n1 ">" then strings.TrimRight n1 ">" else n1)
    (e3 : n3 = if strings.HasSuffix n2 "~" then strings.TrimRight n2 "~" else n2)
    (e4 : n4 = if strings.HasSuffix n3 "?" then strings.TrimRight n3 "?" else n3) :
    buildCustomQuery name =
      { Logic := if strings.HasPrefix name "+" then "and" else "or"
        Selection :=
          if strings.HasSuffix n3 "?" then "wildcard"
          else if strings.HasSuffix n2 "~" then "regex"
          else if strings.HasSuffix n1 ">" then "gte"
          else if strings.HasSuffix n0 "<" then "lte"
          else "multi"
        Field := n4
        Format :=
          if strings.HasSuffix n4 "_datetime" then "01/02/2006 15:04:05 MST"
          else if strings.HasSuffix n4 "_date" then "2006-01-02"
          else [] } := by
  subst e4 e3 e2 e1 e0
  rfl

/-- The names left by the blocks of `buildCustomQuery` exist for every input. -/
theorem buildCustomQuery_stages (name : GoString) :
    ∃ n0 n1 n2 n3 n4 : GoString,
      (n0 = if strings.HasPrefix name "+" then strings.TrimLeft name "+" else name) ∧
      (n1 = if strings.HasSuffix n0 "<" then strings.TrimRight n0 "<" else n0) ∧
      (n2 = if strings.HasSuffix n1 ">" then strings.TrimRight n1 ">" else n1) ∧
      (n3 = if strings.HasSuffix n2 "~" then strings.TrimRight n2 "~" else n2) ∧
      (n4 = if strings.HasSuffix n3 "?" then strings.TrimRight n3 "?" else n3) :=
  ⟨_, _, _, _, _, rfl, rfl, rfl, rfl, rfl⟩

theorem buildCustomQuery_selection (name : GoString) :
    (buildCustomQuery name).Selection ∈
      ([("multi" : GoString), "lte", "gte", "regex", "wildcard"] : List GoString) := by
  obtain ⟨n0, n1, n2, n3, n4, e0, e1, e2, e3, e4⟩ := buildCustomQuery_stages name
  rw [buildCustomQuery_eq name n0 n1 n2 n3 n4 e0 e1 e2 e3 e4]
  simp only []
  split_ifs <;> simp

theorem buildCustomQuery_logic (name : GoString) :
    (buildCustomQuery name).Logic =
      if strings.HasPrefix name "+" then ("and" : GoString) else "or" := by
  obtain ⟨n0, n1, n2, n3, n4, e0, e1, e2, e3, e4⟩ := buildCustomQuery_stages name
  rw [buildCustomQuery_eq name n0 n1 n2 n3 n4 e0 e1 e2 e3 e4]

/-- Every name is a run of `+`, the `Field` of `buildCustomQuery`, and runs of `?`, `~`, `>`
and `<`; the `+` run decides the `Logic` and the innermost non-empty sigil run the
`Selection`. -/
theorem buildCustomQuery_runs (name : GoString) :
    ∃ p a b c d : Nat,
      name = List.replicate p '+' ++ (buildCustomQuery name).Field ++ List.replicate d '?' ++
        List.replicate c '~' ++ List.replicate b '>' ++ List.replicate a '<' ∧
      ((buildCustomQuery name).Logic = ("and" : GoString) ↔ 0 < p) ∧
      ((buildCustomQuery name).Logic = ("or" : GoString) ↔ p = 0) ∧
      (buildCustomQuery name).Selection =
        (if 0 < d then ("wildcard" : GoString)
         else if 0 < c then "regex"
         else if 0 < b then "gte"
         else if 0 < a then "lte"
         else "multi") ∧
      ((buildCustomQuery name).Field ++ List.replicate d '?' ++ List.replicate c '~' ++
        List.replicate b '>' ++ List.replicate a '<').head? ≠ some '+' ∧
      ((buildCustomQuery name).Field ++ List.replicate d '?' ++ List.replicate c '~' ++
        List.replicate b '>').getLast? ≠ some '<' ∧
      ((buildCustomQuery name).Field ++ List.replicate d '?' ++
        List.replicate c '~').getLast? ≠ some '>' ∧
      ((buildCustomQuery name).Field ++ List.replicate d '?').getLast? ≠ some '~' ∧
      (buildCustomQuery name).Field.getLast? ≠ some '?' := by
  obtain ⟨n0, n1, n2, n3, n4, e0, e1, e2, e3, e4⟩ := buildCustomQuery_stages name
  obtain ⟨p, hp, hpp, m0⟩ := block_left '+' name n0 e0
  obtain ⟨a, ha, hap, m1⟩ := block_right '<' n0 n1 e1
  obtain ⟨b, hb, hbp, m2⟩ := block_right '>' n1 n2 e2
  obtain ⟨c, hc, hcp, m3⟩ := block_right '~' n2 n3 e3
  obtain ⟨d, hd, hdp, m4⟩ := block_right '?' n3 n4 e4
  have hq := buildCustomQuery_eq name n0 n1 n2 n3 n4 e0 e1 e2 e3 e4
  have hpp2 : 0 < p ↔ strings.HasPrefix name ("+" : GoString) = true := hpp
  have hap2 : 0 < a ↔ strings.HasSuffix n0 ("<" : GoString) = true := hap
  have hbp2 : 0 < b ↔ strings.HasSuffix n1 (">" : GoString) = true := hbp
  have hcp2 : 0 < c ↔ strings.HasSuffix n2 ("~" : GoString) = true := hcp
  have hdp2 : 0 < d ↔ strings.HasSuffix n3 ("?" : GoString) = true := hdp
  have hl : (buildCustomQuery name).Logic =
      (if strings.HasPrefix name "+" then ("and" : GoString) else "or") := by rw [hq]
  have hf : (buildCustomQuery name).Field = n4 := by rw [hq]
  refine ⟨p, a, b, c, d, ?_, ?_, ?_, ?_, ?_, ?_, ?_, ?_, ?_⟩
  rotate_left 4
  · rw [hf, ← hd, ← hc, ← hb, ← ha]
    exact m0
  · rw [hf, ← hd, ← hc, ← hb]
    exact m1
  · rw [hf, ← hd, ← hc]
    exact m2
  · rw [hf, ← hd]
    exact m3
  · rw [hf]
    exact m4
  · rw [hf]
    conv_lhs => rw [hp, ha, hb, hc, hd]
    simp only [List.append_assoc]
  · rw [hl, hpp2]
    by_cases h : strings.HasPrefix name "+" = true
    · simp only [h, if_true]
    · simp only [h, if_false, iff_false]
      decide
  · rw [hl]
    by_cases h : strings.HasPrefix name "+" = true
    · have hp0 : 0 < p := hpp2.mpr h
      rw [if_pos h]
      constructor
      · intro habs
        exact absurd habs (by decide)
      · intro h0
        omega
    · have hp0 : ¬ 0 < p := fun hpos => h (hpp2.mp hpos)
      rw [if_neg h]
      constructor
      · intro _
        omega
      · intro _
        rfl
  · have hs : (buildCustomQuery name).Selection =
        (if strings.HasSuffix n3 "?" then ("wildcard" : GoString)
         else if strings.HasSuffix n2 "~" then "regex"
         else if strings.HasSuffix n1 ">" then "gte"
         else if strings.HasSuffix n0 "<" then "lte"
         else "multi") := by rw [hq]
    rw [hs]
    simp only [← hap2, ← hbp2, ← hcp2, ← hdp2]

/-- A name made of a run of `+` and runs of `?`, `~`, `>`, `<` only has an empty `Field`. -/
theorem buildCustomQuery_field_of_runs (p a b c d : Nat) :
    (buildCustomQuery (List.replicate p '+' ++ (List.replicate d '?' ++ List.replicate c '~' ++
      List.replicate b '>' ++ List.replicate a '<'))).Field = [] := by
  have e0 := block_left_replicate '+' p
    (List.replicate d '?' ++ List.replicate c '~' ++ List.replicate b '>' ++
      List.replicate a '<')
    (head?_ne_of_forall_ne _ _ (by
      intro x hx
      simp only [List.mem_append, List.mem_replicate] at hx
      rcases hx with ((⟨-, h⟩ | ⟨-, h⟩) | ⟨-, h⟩) | ⟨-, h⟩ <;> rw [h] <;> decide))
  have e1 := block_right_replicate '<' a
    (List.replicate d '?' ++ List.replicate c '~' ++ List.replicate b '>')
    (getLast?_ne_of_forall_ne _ _ (by
      intro x hx
      simp only [List.mem_append, List.mem_replicate] at hx
      rcases hx with (⟨-, h⟩ | ⟨-, h⟩) | ⟨-, h⟩ <;> rw [h] <;> decide))
  have e2 := block_right_replicate '>' b (List.replicate d '?' ++ List.replicate c '~')
    (getLast?_ne_of_forall_ne _ _ (by
      intro x hx
      simp only [List.mem_append, List.mem_replicate] at hx
      rcases hx with ⟨-, h⟩ | ⟨-, h⟩ <;> rw [h] <;> decide))
  have e3 := block_right_replicate '~' c (List.replicate d '?')
    (getLast?_ne_of_forall_ne _ _ (by
      intro x hx
      simp only [List.mem_replicate] at hx
      rw [hx.2]
      decide))
  have e4 := block_right_replicate '?' d [] (by simp)
  rw [List.nil_append] at e4
  rw [buildCustomQuery_eq _ _ _ _ _ [] e0.symm e1.symm e2.symm e3.symm e4.symm]

/-! ## The loop over the values of one parameter -/

theorem Step.map_map {α β γ : Type} (f : α → β) (g : β → γ) (s : Step α) :
    (s.map f).map g = s.map (fun a => g (f a)) := by
  cases s <;> rfl

/-- The sub-query obtained from `filterQuery` by adding the clauses `qs` under the inversion
flag and the logic of `filter`: what `applyQueryLogic` does, query by query. -/
theorem BuildFilterQuery_values_eq (tp : TimePkg) (filter : Filter) (invert : Bool)
    (values : List GoString) (filterQuery : FilterQuery) :
    BuildFilterQuery_values tp filter invert values filterQuery =
      (valueQueries tp filter values).map (fun qs =>
        if invert = true then
          { filterQuery with mustNotClauses := filterQuery.mustNotClauses ++ qs }
        else if filter.Logic = ("or" : GoString) then
          { filterQuery with shouldClauses := filterQuery.shouldClauses ++ qs }
        else { filterQuery with mustClauses := filterQuery.mustClauses ++ qs }) := by
  induction values generalizing filterQuery with
  | nil =>
    simp only [BuildFilterQuery_values, valueQueries, Step.map, List.append_nil]
    split_ifs <;> rfl
  | cons val rest ih =>
    simp only [BuildFilterQuery_values, valueQueries]
    by_cases hb : strings.Trim val " " = []
    · simp only [hb, if_true]
      exact ih filterQuery
    · simp only [hb, if_false]
      cases hq : BuildFilterQuery_value tp filter (strings.Trim val " ") with
      | ok query =>
        simp only [ih, Step.map_map]
        congr 1
        funext qs
        cases invert
        · by_cases hor : filter.Logic = ("or" : GoString)
          · simp only [applyQueryLogic, hor, BoolQuery.Should, Bool.not_false, if_true,
              Bool.false_eq_true, if_false, List.append_assoc, List.singleton_append]
          · simp only [applyQueryLogic, hor, ite_self, BoolQuery.Must, Bool.not_false, if_true,
              Bool.false_eq_true, if_false, List.append_assoc, List.singleton_append]
        · simp only [applyQueryLogic, BoolQuery.MustNot, Bool.not_true, if_true,
            Bool.false_eq_true, if_false, List.append_assoc, List.singleton_append]
      | error msg => rfl
      | panic => rfl

/-- The sub-query of one parameter in closed form. -/
theorem BuildFilterQuery_param_eq (tp : TimePkg) (filterMap : FilterMap) (name : GoString)
    (values : List GoString) :
    BuildFilterQuery_param tp filterMap name values =
      (valueQueries tp (BuildFilterQuery_resolve filterMap name).2.2 values).map (fun qs =>
        if (BuildFilterQuery_resolve filterMap name).1 = true then
          ({ mustClauses := [], mustNotClauses := qs, filterClauses := [], shouldClauses := [],
             queryName := (BuildFilterQuery_resolve filterMap name).2.1 } : FilterQuery)
        else if (BuildFilterQuery_resolve filterMap name).2.2.Logic = ("or" : GoString) then
          { mustClauses := [], mustNotClauses := [], filterClauses := [], shouldClauses := qs,
            queryName := (BuildFilterQuery_resolve filterMap name).2.1 }
        else
          { mustClauses := qs, mustNotClauses := [], filterClauses := [], shouldClauses := [],
            queryName := (BuildFilterQuery_resolve filterMap name).2.1 }) := by
  unfold BuildFilterQuery_param
  simp only [BuildFilterQuery_values_eq, BoolQuery.QueryName, List.nil_append]

/-- With an empty `Format`, each of the six selections `multi`, `text`, `wildcard`, `regex`,
`lte`, `gte` builds its query from the trimmed string itself. -/
theorem BuildFilterQuery_value_plain (tp : TimePkg) (filter : Filter) (v : GoString)
    (hfmt : filter.Format = [])
    (hsel : filter.Selection ∈
      ([("multi" : GoString), "text", "wildcard", "regex", "lte", "gte"] : List GoString)) :
    BuildFilterQuery_value tp filter v = .ok
      (if filter.Selection = ("multi" : GoString) ∨ filter.Selection = ("text" : GoString) then
        Query.term filter.Field (.str v)
      else if filter.Selection = ("wildcard" : GoString) then
        Query.wildcard filter.Field (("*" : GoString) ++ v ++ ("*" : GoString))
      else if filter.Selection = ("regex" : GoString) then Query.regexp filter.Field v
      else if filter.Selection = ("lte" : GoString) then
        Query.range { name := filter.Field, from_ := none, to_ := some (.str v),
                      includeLower := true, includeUpper := true }
      else
        Query.range { name := filter.Field, from_ := some (.str v), to_ := none,
                      includeLower := true, includeUpper := true }) := by
  simp only [List.mem_cons, List.mem_singleton, List.not_mem_nil, or_false] at hsel
  rcases hsel with h | h | h | h | h | h <;>
    simp [BuildFilterQuery_value, hfmt, h, sprintS, NewRangeQuery, RangeQuery.Lte,
      RangeQuery.Gte]

theorem valueQueries_plain (tp : TimePkg) (filter : Filter) (values : List GoString)
    (hfmt : filter.Format = [])
    (hsel : filter.Selection ∈
      ([("multi" : GoString), "text", "wildcard", "regex", "lte", "gte"] : List GoString)) :
    valueQueries tp filter values = .ok
      (((values.map (fun v => strings.Trim v " ")).filter (fun v => decide (v ≠ []))).map
        (fun v =>
          if filter.Selection = ("multi" : GoString) ∨ filter.Selection = ("text" : GoString) then
            Query.term filter.Field (.str v)
          else if filter.Selection = ("wildcard" : GoString) then
            Query.wildcard filter.Field (("*" : GoString) ++ v ++ ("*" : GoString))
          else if filter.Selection = ("regex" : GoString) then Query.regexp filter.Field v
          else if filter.Selection = ("lte" : GoString) then
            Query.range { name := filter.Field, from_ := none, to_ := some (.str v),
                          includeLower := true, includeUpper := true }
          else
            Query.range { name := filter.Field, from_ := some (.str v), to_ := none,
                          includeLower := true, includeUpper := true })) := by
  induction values with
  | nil => rfl
  | cons val rest ih =>
    by_cases hb : strings.Trim val " " = []
    · simp only [valueQueries, hb, if_true, ih, List.map_cons, ne_eq, not_true_eq_false,
        decide_False, Bool.false_eq_true, not_false_eq_true, List.filter_cons_of_neg]
    · simp only [valueQueries, hb, if_false, ih, BuildFilterQuery_value_plain tp filter _ hfmt hsel,
        Step.map, List.map_cons, ne_eq, not_false_eq_true, decide_True, List.filter_cons_of_pos]

/-- One-parameter mapping: `BuildFilterQuery` adds the sub-query of the parameter to the
accumulator as a filter clause, or ends with the error or panic met while building it. -/
theorem BuildFilterQuery_single (tp : TimePkg) (searchFilter : SearchFilter)
    (filterMap : FilterMap) (name : GoString) (values : List GoString) (hv : values ≠ []) :
    BuildFilterQuery tp searchFilter [(name, values)] filterMap =
      match BuildFilterQuery_param tp filterMap name values with
      | .ok filterQuery => (searchFilter.Filter filterQuery, .nil)
      | .error msg => (searchFilter, .err msg)
      | .panic => (searchFilter, .panic) := by
  have hlen : ¬ values.length = 0 := by
    intro h
    exact hv (List.length_eq_zero.mp h)
  cases hq : BuildFilterQuery_param tp filterMap name values <;>
    simp only [BuildFilterQuery, hlen, if_false, hq]

/-! ## Which values build a query -/

/-- A `Selection` that is no case label reaches `default`. -/
theorem BuildFilterQuery_value_unknown (tp : TimePkg) (filter : Filter) (v : GoString)
    (hsel : filter.Selection ∉ supportedSelections) :
    BuildFilterQuery_value tp filter v =
      .error (("Unknown Selection: " : GoString) ++ filter.Selection) := by
  simp only [supportedSelections, List.mem_cons, List.mem_singleton, List.not_mem_nil,
    or_false, not_or] at hsel
  obtain ⟨h1, h2, h3, h4, h5, h6, h7⟩ := hsel
  simp only [BuildFilterQuery_value, h1, h2, h3, h4, h5, h6, h7, if_false]

/-- A case label other than `date` with an empty `Format` builds a query. -/
theorem BuildFilterQuery_value_supported (tp : TimePkg) (filter : Filter) (v : GoString)
    (hsel : filter.Selection ∈ supportedSelections)
    (hdate : ¬ (filter.Selection = ("date" : GoString) ∧ filter.Format = [])) :
    ∃ q, BuildFilterQuery_value tp filter v = .ok q := by
  simp only [supportedSelections, List.mem_cons, List.mem_singleton, List.not_mem_nil,
    or_false] at hsel
  by_cases hfmt : filter.Format = []
  · rcases hsel with h | h | h | h | h | h | h
    · exact ⟨_, by simp only [BuildFilterQuery_value, h, if_true]; rfl⟩
    · exact absurd ⟨h, hfmt⟩ hdate
    all_goals exact ⟨_, by simp [BuildFilterQuery_value, h, hfmt]; rfl⟩
  · rcases hsel with h | h | h | h | h | h | h
    · exact ⟨_, by simp only [BuildFilterQuery_value, h, if_true]; rfl⟩
    all_goals exact ⟨_, by simp [BuildFilterQuery_value, h, hfmt]; rfl⟩

theorem valueQueries_supported (tp : TimePkg) (filter : Filter) (values : List GoString)
    (hsel : filter.Selection ∈ supportedSelections)
    (hdate : ¬ (filter.Selection = ("date" : GoString) ∧ filter.Format = [])) :
    ∃ qs, valueQueries tp filter values = .ok qs ∧
      qs.length = (values.filter (fun v => decide (strings.Trim v " " ≠ []))).length := by
  induction values with
  | nil => exact ⟨[], rfl, rfl⟩
  | cons val rest ih =>
    obtain ⟨qs, hqs, hlen⟩ := ih
    by_cases hb : strings.Trim val " " = []
    · refine ⟨qs, ?_, ?_⟩
      · simp only [valueQueries, hb, if_true, hqs]
      · simp only [hlen, hb, ne_eq, not_true_eq_false, decide_False, Bool.false_eq_true,
          not_false_eq_true, List.filter_cons_of_neg]
    · obtain ⟨q, hq⟩ := BuildFilterQuery_value_supported tp filter (strings.Trim val " ") hsel hdate
      refine ⟨q :: qs, ?_, ?_⟩
      · simp only [valueQueries, hb, if_false, hq, hqs, Step.map]
      · simp only [List.length_cons, hlen, hb, ne_eq, not_false_eq_true, decide_True,
          List.filter_cons_of_pos]

theorem valueQueries_unknown (tp : TimePkg) (filter : Filter) (values : List GoString)
    (hsel : filter.Selection ∉ supportedSelections) :
    valueQueries tp filter values =
      if values.any (fun v => decide (strings.Trim v " " ≠ [])) = true then
        .error (("Unknown Selection: " : GoString) ++ filter.Selection)
      else .ok [] := by
  induction values with
  | nil => rfl
  | cons val rest ih =>
    by_cases hb : strings.Trim val " " = []
    · simp only [valueQueries, hb, if_true, ih, List.any_cons, ne_eq, not_true_eq_false,
        decide_False, Bool.false_or]
    · simp only [valueQueries, hb, if_false, BuildFilterQuery_value_unknown tp filter _ hsel,
        List.any_cons, ne_eq, not_false_eq_true, decide_True, Bool.true_or, if_true]

/-- A filter built by `buildCustomQuery` never has the selection `date`; a filter taken from
a catalog without a `date` entry of empty `Format` is no such entry. -/
theorem resolve_not_date_plain (filterMap : FilterMap) (name : GoString)
    (hcat : ∀ k f, filterMap k = some f →
      ¬ (f.Selection = ("date" : GoString) ∧ f.Format = [])) :
    ¬ ((BuildFilterQuery_resolve filterMap name).2.2.Selection = ("date" : GoString) ∧
        (BuildFilterQuery_resolve filterMap name).2.2.Format = []) := by
  have key : ∀ k : GoString,
      ¬ ((match filterMap k with
          | some filter => filter
          | none => buildCustomQuery k).Selection = ("date" : GoString) ∧
         (match filterMap k with
          | some filter => filter
          | none => buildCustomQuery k).Format = []) := by
    intro k
    cases hk : filterMap k with
    | some f => exact hcat k f hk
    | none =>
      intro h
      have hm := buildCustomQuery_selection k
      simp only [] at h
      rw [h.1] at hm
      revert hm
      decide
  unfold BuildFilterQuery_resolve
  split_ifs
  · exact key _
  · exact key _

/-- The outcome of `BuildFilterQuery` on a catalog without a `date` entry of empty `Format`:
the error of the first parameter that reaches the `default` case, nil when there is none. -/
theorem BuildFilterQuery_outcome (tp : TimePkg) (searchFilter : SearchFilter)
    (filters : List (GoString × List GoString)) (filterMap : FilterMap)
    (hcat : ∀ k f, filterMap k = some f →
      ¬ (f.Selection = ("date" : GoString) ∧ f.Format = [])) :
    (BuildFilterQuery tp searchFilter filters filterMap).2 =
      match filters.find? (reachesDefault filterMap) with
      | some p =>
        .err (("Unknown Selection: " : GoString) ++
          (BuildFilterQuery_resolve filterMap p.1).2.2.Selection)
      | none => .nil := by
  induction filters generalizing searchFilter with
  | nil => rfl
  | cons p rest ih =>
    obtain ⟨name, values⟩ := p
    by_cases hlen : values.length = 0
    · have hnil : values = [] := List.length_eq_zero.mp hlen
      have hbad : reachesDefault filterMap (name, values) = false := by
        simp [reachesDefault, hnil]
      simp only [BuildFilterQuery, hlen, if_true, List.find?_cons, hbad]
      exact ih searchFilter
    · by_cases hsel : (BuildFilterQuery_resolve filterMap name).2.2.Selection ∈
          supportedSelections
      · have hbad : reachesDefault filterMap (name, values) = false := by
          simp [reachesDefault, hsel]
        obtain ⟨qs, hqs, -⟩ := valueQueries_supported tp _ values hsel
          (resolve_not_date_plain filterMap name hcat)
        simp only [BuildFilterQuery, hlen, if_false, List.find?_cons, hbad,
          BuildFilterQuery_param_eq, hqs, Step.map]
        exact ih _
      · have hvq := valueQueries_unknown tp _ values hsel
        by_cases hany : values.any (fun v => decide (strings.Trim v " " ≠ [])) = true
        · have hbad : reachesDefault filterMap (name, values) = true := by
            simp only [reachesDefault, hany, hsel, not_false_eq_true, decide_True, Bool.and_self]
          rw [if_pos hany] at hvq
          simp only [BuildFilterQuery, hlen, if_false, List.find?_cons, hbad,
            BuildFilterQuery_param_eq, hvq, Step.map]
        · have hbad : reachesDefault filterMap (name, values) = false := by
            simp only [reachesDefault, hany, Bool.false_and]
          rw [if_neg hany] at hvq
          simp only [BuildFilterQuery, hlen, if_false, List.find?_cons, hbad,
            BuildFilterQuery_param_eq, hvq, Step.map]
          exact ih _

/-- With a non-empty `Format`, every case label builds its query from the `Time` that
`time.Parse` returned, whatever error `time.Parse` returned with it. -/
theorem BuildFilterQuery_value_formatted (tp : TimePkg) (filter : Filter) (v : GoString)
    (hfmt : filter.Format ≠ [])
    (hsel : filter.Selection ∈ supportedSelections) :
    BuildFilterQuery_value tp filter v = .ok
      (if filter.Selection = ("multi" : GoString) ∨ filter.Selection = ("text" : GoString) then
        Query.term filter.Field (.time (tp.Parse filter.Format v).1)
      else if filter.Selection = ("date" : GoString) then
        Query.range { name := filter.Field,
                      from_ := some (.time (tp.Parse filter.Format v).1),
                      to_ := some (.time ((tp.Parse filter.Format v).1.Add (24 * Hour))),
                      includeLower := true, includeUpper := true }
      else if filter.Selection = ("wildcard" : GoString) then
        Query.wildcard filter.Field
          (("*" : GoString) ++ tp.String (tp.Parse filter.Format v).1 ++ ("*" : GoString))
      else if filter.Selection = ("regex" : GoString) then
        Query.regexp filter.Field (tp.String (tp.Parse filter.Format v).1)
      else if filter.Selection = ("lte" : GoString) then
        Query.range { name := filter.Field, from_ := none,
                      to_ := some (.time (tp.Parse filter.Format v).1),
                      includeLower := true, includeUpper := true }
      else
        Query.range { name := filter.Field,
                      from_ := some (.time (tp.Parse filter.Format v).1), to_ := none,
                      includeLower := true, includeUpper := true }) := by
  simp only [supportedSelections, List.mem_cons, List.mem_singleton, List.not_mem_nil,
    or_false] at hsel
  rcases hsel with h | h | h | h | h | h | h <;>
    simp [BuildFilterQuery_value, hfmt, h, sprintS, NewRangeQuery, RangeQuery.Lte,
      RangeQuery.Gte, RangeQuery.From, RangeQuery.To, createDateQuery]

/-! ## The run over the parameters -/

/-- The accumulator that `BuildFilterQuery` leaves is the one it was given, with the
sub-queries of the run appended to its filter list; the call ends as the run does. -/
theorem BuildFilterQuery_eq_subQueries (tp : TimePkg) (searchFilter : SearchFilter)
    (filters : List (GoString × List GoString)) (filterMap : FilterMap) :
    BuildFilterQuery tp searchFilter filters filterMap =
      ({ searchFilter with
          filterClauses := searchFilter.filterClauses ++ (subQueries tp filterMap filters).1 },
       (subQueries tp filterMap filters).2) := by
  induction filters generalizing searchFilter with
  | nil => simp only [BuildFilterQuery, subQueries, List.append_nil]
  | cons p rest ih =>
    obtain ⟨name, values⟩ := p
    by_cases hv : values = []
    · subst hv
      simp only [BuildFilterQuery, subQueries, List.length_nil, if_true]
      exact ih searchFilter
    · have hlen : ¬ values.length = 0 := fun h => hv (List.length_eq_zero.mp h)
      cases hq : BuildFilterQuery_param tp filterMap name values with
      | ok filterQuery =>
        simp only [BuildFilterQuery, subQueries, hlen, hv, if_false, hq, ih,
          BoolQuery.Filter, List.append_assoc, List.singleton_append]
      | error msg =>
        simp only [BuildFilterQuery, subQueries, hlen, hv, if_false, hq, List.append_nil]
      | panic =>
        simp only [BuildFilterQuery, subQueries, hlen, hv, if_false, hq, List.append_nil]

/-- A run that ends with nil has built the sub-query of every parameter with a value, in
order. -/
theorem subQueries_nil (tp : TimePkg) (filterMap : FilterMap)
    (filters : List (GoString × List GoString))
    (h : (subQueries tp filterMap filters).2 = .nil) :
    List.Forall₂ (fun p bq => BuildFilterQuery_param tp filterMap p.1 p.2 = .ok bq)
      (filters.filter (fun p => decide (p.2 ≠ []))) (subQueries tp filterMap filters).1 := by
  induction filters with
  | nil => exact List.Forall₂.nil
  | cons p rest ih =>
    obtain ⟨name, values⟩ := p
    by_cases hv : values = []
    · simp only [subQueries, hv, if_true] at h ⊢
      simpa using ih h
    · cases hq : BuildFilterQuery_param tp filterMap name values with
      | ok filterQuery =>
        simp only [subQueries, hv, if_false, hq] at h ⊢
        simp only [ne_eq, hv, not_false_eq_true, decide_True, List.filter_cons_of_pos]
        exact List.Forall₂.cons hq (ih h)
      | error msg =>
        simp only [subQueries, hv, if_false, hq] at h
        cases h
      | panic =>
        simp only [subQueries, hv, if_false, hq] at h
        cases h

/-- A run ends with nil exactly when the sub-query of every parameter with a value is
built. -/
theorem subQueries_nil_iff (tp : TimePkg) (filterMap : FilterMap)
    (filters : List (GoString × List GoString)) :
    (subQueries tp filterMap filters).2 = .nil ↔
      ∀ p ∈ filters, p.2 ≠ [] → ∃ bq, BuildFilterQuery_param tp filterMap p.1 p.2 = .ok bq := by
  induction filters with
  | nil => simp [subQueries]
  | cons p rest ih =>
    obtain ⟨name, values⟩ := p
    by_cases hv : values = []
    · simp only [subQueries, hv, if_true, ih, List.mem_cons, forall_eq_or_imp, ne_eq,
        not_true_eq_false, false_implies, true_and]
    · cases hq : BuildFilterQuery_param tp filterMap name values with
      | ok filterQuery =>
        simp only [subQueries, hv, if_false, hq, ih, List.mem_cons, forall_eq_or_imp, ne_eq,
          not_false_eq_true, Step.ok.injEq, exists_eq', true_implies, true_and]
      | error msg =>
        simp only [subQueries, hv, if_false, hq, List.mem_cons, forall_eq_or_imp, ne_eq,
          not_false_eq_true, true_implies]
        constructor
        · intro h
          cases h
        · rintro ⟨⟨bq, hbq⟩, -⟩
          cases hbq
      | panic =>
        simp only [subQueries, hv, if_false, hq, List.mem_cons, forall_eq_or_imp, ne_eq,
          not_false_eq_true, true_implies]
        constructor
        · intro h
          cases h
        · rintro ⟨⟨bq, hbq⟩, -⟩
          cases hbq

/-! ## Blank values and names -/

/-- A value is empty after `strings.Trim(val, " ")` exactly when all its characters are
spaces. -/
theorem trim_eq_nil_iff (v : GoString) :
    strings.Trim v " " = [] ↔ ∀ c ∈ v, c = ' ' := by
  have hsp : ∀ c : Char, decide (c ∈ (" " : GoString)) = true ↔ c = ' ' := by
    intro c
    simp
  unfold strings.Trim strings.TrimRight strings.TrimLeft
  rw [List.reverse_eq_nil_iff, List.dropWhile_eq_nil_iff]
  constructor
  · intro h
    have hnil : List.dropWhile (fun c => decide (c ∈ (" " : GoString))) v = [] := by
      cases hd : List.dropWhile (fun c => decide (c ∈ (" " : GoString))) v with
      | nil => rfl
      | cons a t =>
        exfalso
        have hhead := List.head_dropWhile_not (fun c => decide (c ∈ (" " : GoString))) v
          (by rw [hd]; exact List.cons_ne_nil a t)
        have ha : a ∈ (List.dropWhile (fun c => decide (c ∈ (" " : GoString))) v).reverse := by
          rw [hd]
          simp
        have := h a ha
        simp only [hd, List.head_cons] at hhead
        rw [this] at hhead
        cases hhead
    intro c hc
    exact (hsp c).mp ((List.dropWhile_eq_nil_iff.mp hnil) c hc)
  · intro h c hc
    rw [List.mem_reverse] at hc
    exact (hsp c).mpr (h c (List.dropWhile_subset _ hc))

/-- A value made of spaces only is skipped by the loop over the values. -/
theorem valueQueries_skip_blank (tp : TimePkg) (filter : Filter) (pre post : List GoString)
    (v : GoString) (h : strings.Trim v " " = []) :
    valueQueries tp filter (pre ++ v :: post) = valueQueries tp filter (pre ++ post) := by
  induction pre with
  | nil => simp only [List.nil_append, valueQueries, h, if_true]
  | cons w rest ih =>
    show valueQueries tp filter (w :: (rest ++ v :: post)) =
      valueQueries tp filter (w :: (rest ++ post))
    simp only [valueQueries, ih]

/-- The name of a sub-query that is built is the parameter name without its leading `!`
characters. -/
theorem BuildFilterQuery_param_queryName (tp : TimePkg) (filterMap : FilterMap)
    (name : GoString) (values : List GoString) (bq : FilterQuery)
    (h : BuildFilterQuery_param tp filterMap name values = .ok bq) :
    bq.queryName = if strings.HasPrefix name "!" then strings.TrimLeft name "!" else name := by
  have hname : (BuildFilterQuery_resolve filterMap name).2.1 =
      if strings.HasPrefix name "!" then strings.TrimLeft name "!" else name := by
    unfold BuildFilterQuery_resolve
    split_ifs <;> rfl
  rw [BuildFilterQuery_param_eq] at h
  cases hq : valueQueries tp (BuildFilterQuery_resolve filterMap name).2.2 values with
  | ok qs =>
    rw [hq] at h
    simp only [Step.map, Step.ok.injEq] at h
    rw [← h, ← hname]
    split_ifs <;> rfl
  | error msg =>
    rw [hq] at h
    cases h
  | panic =>
    rw [hq] at h
    cases h

/-! ## The aggregation map -/

/-- The inner loop of `BuildAggregationQuery` over the filters of one group: the entry of a
key is the terms aggregation of size 0 on that key when a filter of the group has it as
`Field`, is not static and has the selection `multi` or `single`, and is the entry the map
had before otherwise. -/
theorem aggregation_inner (fs : List Filter) (ag : FilterAggs) (k : GoString) :
    ((∃ f ∈ fs, f.Field = k ∧ f.Static = false ∧
        (f.Selection = ("multi" : GoString) ∨ f.Selection = ("single" : GoString))) ∧
      fs.foldl (fun ag filter =>
        if filter.Static = true ∨
            (filter.Selection ≠ ("multi" : GoString) ∧
              filter.Selection ≠ ("single" : GoString)) then ag
        else
          fun k =>
            if k = filter.Field then
              some ((NewTermsAggregation.Field filter.Field).Size 0)
            else ag k) ag k = some { field := k, size := some 0 }) ∨
    ((¬ ∃ f ∈ fs, f.Field = k ∧ f.Static = false ∧
        (f.Selection = ("multi" : GoString) ∨ f.Selection = ("single" : GoString))) ∧
      fs.foldl (fun ag filter =>
        if filter.Static = true ∨
            (filter.Selection ≠ ("multi" : GoString) ∧
              filter.Selection ≠ ("single" : GoString)) then ag
        else
          fun k =>
            if k = filter.Field then
              some ((NewTermsAggregation.Field filter.Field).Size 0)
            else ag k) ag k = ag k) := by
  induction fs generalizing ag with
  | nil => exact Or.inr ⟨by simp, rfl⟩
  | cons f rest ih =>
    simp only [List.foldl_cons]
    rcases ih (if f.Static = true ∨
        (f.Selection ≠ ("multi" : GoString) ∧ f.Selection ≠ ("single" : GoString)) then ag
      else fun k => if k = f.Field then some ((NewTermsAggregation.Field f.Field).Size 0)
        else ag k) with ⟨⟨g, hg, hel⟩, hres⟩ | ⟨hno, hres⟩
    · exact Or.inl ⟨⟨g, List.mem_cons_of_mem _ hg, hel⟩, hres⟩
    · by_cases hskip : f.Static = true ∨
          (f.Selection ≠ ("multi" : GoString) ∧ f.Selection ≠ ("single" : GoString))
      · refine Or.inr ⟨?_, ?_⟩
        · rintro ⟨g, hg, hf, hst, hsel⟩
          rcases List.mem_cons.mp hg with rfl | hg
          · rcases hskip with h | ⟨h1, h2⟩
            · rw [h] at hst
              cases hst
            · rcases hsel with h | h
              · exact h1 h
              · exact h2 h
          · exact hno ⟨g, hg, hf, hst, hsel⟩
        · rw [hres, if_pos hskip]
      · by_cases hk : k = f.Field
        · refine Or.inl ⟨⟨f, List.mem_cons_self _ _, hk.symm, ?_, ?_⟩, ?_⟩
          · cases hst : f.Static with
            | false => rfl
            | true => exact absurd (Or.inl hst) hskip
          · by_contra hsel
            exact hskip (Or.inr ⟨fun h => hsel (Or.inl h), fun h => hsel (Or.inr h)⟩)
          · rw [hres, if_neg hskip]
            simp only [hk, if_true, NewTermsAggregation, TermsAggregation.Field,
              TermsAggregation.Size]
        · refine Or.inr ⟨?_, ?_⟩
          · rintro ⟨g, hg, hf, hst, hsel⟩
            rcases List.mem_cons.mp hg with rfl | hg
            · exact hk hf.symm
            · exact hno ⟨g, hg, hf, hst, hsel⟩
          · rw [hres, if_neg hskip]
            simp only [hk, if_false]

/-- The outer loop of `BuildAggregationQuery` over the groups. -/
theorem aggregation_outer (fg : List FilterGroup) (ag : FilterAggs) (k : GoString) :
    ((∃ g ∈ fg, ∃ f ∈ g.Filters, f.Field = k ∧ f.Static = false ∧
        (f.Selection = ("multi" : GoString) ∨ f.Selection = ("single" : GoString))) ∧
      fg.foldl (fun ag group =>
        group.Filters.foldl (fun ag filter =>
          if filter.Static = true ∨
              (filter.Selection ≠ ("multi" : GoString) ∧
                filter.Selection ≠ ("single" : GoString)) then ag
          else
            fun k =>
              if k = filter.Field then
                some ((NewTermsAggregation.Field filter.Field).Size 0)
              else ag k) ag) ag k = some { field := k, size := some 0 }) ∨
    ((¬ ∃ g ∈ fg, ∃ f ∈ g.Filters, f.Field = k ∧ f.Static = false ∧
        (f.Selection = ("multi" : GoString) ∨ f.Selection = ("single" : GoString))) ∧
      fg.foldl (fun ag group =>
        group.Filters.foldl (fun ag filter =>
          if filter.Static = true ∨
              (filter.Selection ≠ ("multi" : GoString) ∧
                filter.Selection ≠ ("single" : GoString)) then ag
          else
            fun k =>
              if k = filter.Field then
                some ((NewTermsAggregation.Field filter.Field).Size 0)
              else ag k) ag) ag k = ag k) := by
  induction fg generalizing ag with
  | nil => exact Or.inr ⟨by simp, rfl⟩
  | cons g rest ih =>
    simp only [List.foldl_cons]
    rcases ih (g.Filters.foldl (fun ag filter =>
        if filter.Static = true ∨
            (filter.Selection ≠ ("multi" : GoString) ∧
              filter.Selection ≠ ("single" : GoString)) then ag
        else
          fun k =>
            if k = filter.Field then
              some ((NewTermsAggregation.Field filter.Field).Size 0)
            else ag k) ag) with ⟨⟨g2, hg2, hel⟩, hres⟩ | ⟨hno, hres⟩
    · exact Or.inl ⟨⟨g2, List.mem_cons_of_mem _ hg2, hel⟩, hres⟩
    · rcases aggregation_inner g.Filters ag k with ⟨hex, hin⟩ | ⟨hnex, hin⟩
      · exact Or.inl ⟨⟨g, List.mem_cons_self _ _, hex⟩, by rw [hres, hin]⟩
      · refine Or.inr ⟨?_, by rw [hres, hin]⟩
        rintro ⟨g2, hg2, hel⟩
        rcases List.mem_cons.mp hg2 with rfl | hg2
        · exact hnex hel
        · exact hno ⟨g2, hg2, hel⟩

/-! ## How a run fails -/

/-- A run that ends with an error stopped at a parameter with a value whose sub-query met
that error, after building the sub-queries of the parameters with a value before it. -/
theorem subQueries_err (tp : TimePkg) (filterMap : FilterMap)
    (filters : List (GoString × List GoString)) (msg : GoString)
    (h : (subQueries tp filterMap filters).2 = .err msg) :
    ∃ pre p post, filters = pre ++ p :: post ∧ p.2 ≠ [] ∧
      BuildFilterQuery_param tp filterMap p.1 p.2 = .error msg ∧
      List.Forall₂ (fun q bq => BuildFilterQuery_param tp filterMap q.1 q.2 = .ok bq)
        (pre.filter (fun q => decide (q.2 ≠ []))) (subQueries tp filterMap filters).1 := by
  induction filters with
  | nil =>
    simp only [subQueries] at h
    cases h
  | cons p rest ih =>
    obtain ⟨name, values⟩ := p
    by_cases hv : values = []
    · simp only [subQueries, hv, if_true] at h ⊢
      obtain ⟨pre, q, post, hl, hq, herr, hall⟩ := ih h
      refine ⟨(name, []) :: pre, q, post, by rw [hl]; rfl, hq, herr, ?_⟩
      simpa using hall
    · cases hq : BuildFilterQuery_param tp filterMap name values with
      | ok filterQuery =>
        simp only [subQueries, hv, if_false, hq] at h ⊢
        obtain ⟨pre, q, post, hl, hq2, herr, hall⟩ := ih h
        refine ⟨(name, values) :: pre, q, post, by rw [hl]; rfl, hq2, herr, ?_⟩
        simp only [ne_eq, hv, not_false_eq_true, decide_True, List.filter_cons_of_pos]
        exact List.Forall₂.cons hq hall
      | error m =>
        simp only [subQueries, hv, if_false, hq, Outcome.err.injEq] at h ⊢
        subst h
        exact ⟨[], (name, values), rest, rfl, hv, hq, List.Forall₂.nil⟩
      | panic =>
        simp only [subQueries, hv, if_false, hq] at h
        cases h

/-- A run that ends with a panic stopped at a parameter with a value whose sub-query
panicked. -/
theorem subQueries_panic (tp : TimePkg) (filterMap : FilterMap)
    (filters : List (GoString × List GoString))
    (h : (subQueries tp filterMap filters).2 = .panic) :
    ∃ p ∈ filters, p.2 ≠ [] ∧ BuildFilterQuery_param tp filterMap p.1 p.2 = .panic := by
  induction filters with
  | nil =>
    simp only [subQueries] at h
    cases h
  | cons p rest ih =>
    obtain ⟨name, values⟩ := p
    by_cases hv : values = []
    · simp only [subQueries, hv, if_true] at h
      obtain ⟨q, hq, hne, hp⟩ := ih h
      exact ⟨q, List.mem_cons_of_mem _ hq, hne, hp⟩
    · cases hq : BuildFilterQuery_param tp filterMap name values with
      | ok filterQuery =>
        simp only [subQueries, hv, if_false, hq] at h
        obtain ⟨q, hq2, hne, hp⟩ := ih h
        exact ⟨q, List.mem_cons_of_mem _ hq2, hne, hp⟩
      | error m =>
        simp only [subQueries, hv, if_false, hq] at h
        cases h
      | panic => exact ⟨(name, values), List.mem_cons_self _ _, hv, hq⟩

/-- The query of a value panics only in the `date` case with an empty `Format`. -/
theorem BuildFilterQuery_value_panic (tp : TimePkg) (filter : Filter) (v : GoString)
    (h : BuildFilterQuery_value tp filter v = .panic) :
    filter.Selection = ("date" : GoString) ∧ filter.Format = [] := by
  by_cases hsel : filter.Selection ∈ supportedSelections
  · by_cases hd : filter.Selection = ("date" : GoString) ∧ filter.Format = []
    · exact hd
    · obtain ⟨q, hq⟩ := BuildFilterQuery_value_supported tp filter v hsel hd
      rw [hq] at h
      cases h
  · rw [BuildFilterQuery_value_unknown tp filter v hsel] at h
    cases h

/-- The `date` case with an empty `Format` panics. -/
theorem BuildFilterQuery_value_date_plain (tp : TimePkg) (filter : Filter) (v : GoString)
    (hsel : filter.Selection = ("date" : GoString)) (hfmt : filter.Format = []) :
    BuildFilterQuery_value tp filter v = .panic := by
  simp [BuildFilterQuery_value, hsel, hfmt]

/-- The loop over the values panics only on a value that is non-empty after trimming, with
a filter of selection `date` and empty `Format`. -/
theorem valueQueries_panic (tp : TimePkg) (filter : Filter) (values : List GoString)
    (h : valueQueries tp filter values = .panic) :
    filter.Selection = ("date" : GoString) ∧ filter.Format = [] ∧
      ∃ v ∈ values, strings.Trim v " " ≠ [] := by
  induction values with
  | nil =>
    simp only [valueQueries] at h
    cases h
  | cons val rest ih =>
    by_cases hb : strings.Trim val " " = []
    · simp only [valueQueries, hb, if_true] at h
      obtain ⟨h1, h2, v, hv, hne⟩ := ih h
      exact ⟨h1, h2, v, List.mem_cons_of_mem _ hv, hne⟩
    · cases hq : BuildFilterQuery_value tp filter (strings.Trim val " ") with
      | ok q =>
        simp only [valueQueries, hb, if_false, hq] at h
        cases hr : valueQueries tp filter rest with
        | ok qs =>
          rw [hr] at h
          cases h
        | error m =>
          rw [hr] at h
          cases h
        | panic =>
          obtain ⟨h1, h2, v, hv, hne⟩ := ih hr
          exact ⟨h1, h2, v, List.mem_cons_of_mem _ hv, hne⟩
      | error m =>
        simp only [valueQueries, hb, if_false, hq] at h
        cases h
      | panic =>
        obtain ⟨h1, h2⟩ := BuildFilterQuery_value_panic tp filter _ hq
        exact ⟨h1, h2, val, List.mem_cons_self _ _, hb⟩

/-- The filter that a parameter resolves to is the catalog entry of its stripped name, or
the filter synthesized from it when the catalog has none. -/
theorem resolve_filter_eq (filterMap : FilterMap) (name : GoString) :
    (BuildFilterQuery_resolve filterMap name).2.2 =
      match filterMap (BuildFilterQuery_resolve filterMap name).2.1 with
      | some filter => filter
      | none => buildCustomQuery (BuildFilterQuery_resolve filterMap name).2.1 := by
  unfold BuildFilterQuery_resolve
  split_ifs <;> rfl

/-- The sub-query of a parameter absent from the catalog is always built. -/
theorem BuildFilterQuery_param_absent (tp : TimePkg) (filterMap : FilterMap)
    (name : GoString) (values : List GoString)
    (habs : filterMap (BuildFilterQuery_resolve filterMap name).2.1 = none) :
    ∃ bq, BuildFilterQuery_param tp filterMap name values = .ok bq := by
  have hres := resolve_filter_eq filterMap name
  rw [habs] at hres
  simp only [] at hres
  have h5 := buildCustomQuery_selection (BuildFilterQuery_resolve filterMap name).2.1
  rw [← hres] at h5
  have hmem : (BuildFilterQuery_resolve filterMap name).2.2.Selection ∈
      supportedSelections := by
    revert h5
    generalize (BuildFilterQuery_resolve filterMap name).2.2.Selection = sel
    intro h
    simp only [List.mem_cons, List.mem_singleton, List.not_mem_nil, or_false] at h
    rcases h with h | h | h | h | h <;> rw [h] <;> decide
  have hdate : ¬ ((BuildFilterQuery_resolve filterMap name).2.2.Selection =
      ("date" : GoString) ∧ (BuildFilterQuery_resolve filterMap name).2.2.Format = []) := by
    intro h
    rw [h.1] at h5
    revert h5
    decide
  obtain ⟨qs, hqs, -⟩ := valueQueries_supported tp _ values hmem hdate
  rw [BuildFilterQuery_param_eq, hqs]
  exact ⟨_, rfl⟩

/-- With a non-empty `Format`, the value-level queries of a parameter are built, one per
value that is non-empty after trimming, each on the `Time` that `time.Parse` returned for
it. -/
theorem valueQueries_formatted (tp : TimePkg) (filter : Filter) (values : List GoString)
    (hfmt : filter.Format ≠ [])
    (hsel : filter.Selection ∈ supportedSelections) :
    valueQueries tp filter values = .ok
      (((values.map (fun v => strings.Trim v " ")).filter (fun v => decide (v ≠ []))).map
        (fun v =>
          if filter.Selection = ("multi" : GoString) ∨ filter.Selection = ("text" : GoString) then
            Query.term filter.Field (.time (tp.Parse filter.Format v).1)
          else if filter.Selection = ("date" : GoString) then
            Query.range { name := filter.Field,
                          from_ := some (.time (tp.Parse filter.Format v).1),
                          to_ := some (.time ((tp.Parse filter.Format v).1.Add (24 * Hour))),
                          includeLower := true, includeUpper := true }
          else if filter.Selection = ("wildcard" : GoString) then
            Query.wildcard filter.Field
              (("*" : GoString) ++ tp.String (tp.Parse filter.Format v).1 ++ ("*" : GoString))
          else if filter.Selection = ("regex" : GoString) then
            Query.regexp filter.Field (tp.String (tp.Parse filter.Format v).1)
          else if filter.Selection = ("lte" : GoString) then
            Query.range { name := filter.Field, from_ := none,
                          to_ := some (.time (tp.Parse filter.Format v).1),
                          includeLower := true, includeUpper := true }
          else
            Query.range { name := filter.Field,
                          from_ := some (.time (tp.Parse filter.Format v).1), to_ := none,
                          includeLower := true, includeUpper := true })) := by
  induction values with
  | nil => rfl
  | cons val rest ih =>
    by_cases hb : strings.Trim val " " = []
    · simp only [valueQueries, hb, if_true, ih, List.map_cons, ne_eq, not_true_eq_false,
        decide_False, Bool.false_eq_true, not_false_eq_true, List.filter_cons_of_neg]
    · simp only [valueQueries, hb, if_false, ih,
        BuildFilterQuery_value_formatted tp filter _ hfmt hsel,
        Step.map, List.map_cons, ne_eq, not_false_eq_true, decide_True, List.filter_cons_of_pos]

/-! ## Claims -/

/-- C1 (value dispatch). For a parameter whose resolved filter has an empty `Format` and a
`Selection` among multi, text, wildcard, regex, lte, gte, the sub-query is built, its filter
list is empty, and its clauses are exactly one per value that is non-empty after trimming
spaces, in the order of the values: a term query on `(Field, v)` for multi and text, a
wildcard query with pattern `*v*`, a regexp query on `(Field, v)`, a range query with
inclusive upper bound `v` and no lower bound for lte, a range query with inclusive lower
bound `v` and no upper bound for gte. With at least one value, `BuildFilterQuery` on that
parameter adds this sub-query to the accumulator and returns nil. -/
theorem C1_value_dispatch (tp : TimePkg) (filterMap : FilterMap) (name : GoString)
    (values : List GoString) (filter : Filter)
    (hres : (BuildFilterQuery_resolve filterMap name).2.2 = filter)
    (hfmt : filter.Format = [])
    (hsel : filter.Selection ∈
      ([("multi" : GoString), "text", "wildcard", "regex", "lte", "gte"] : List GoString)) :
    ∃ bq : FilterQuery,
      BuildFilterQuery_param tp filterMap name values = .ok bq ∧
      bq.filterClauses = [] ∧
      bq.mustClauses ++ bq.shouldClauses ++ bq.mustNotClauses =
        ((values.map (fun v => strings.Trim v " ")).filter (fun v => decide (v ≠ []))).map
          (fun v =>
            if filter.Selection = ("multi" : GoString) ∨
                filter.Selection = ("text" : GoString) then
              Query.term filter.Field (.str v)
            else if filter.Selection = ("wildcard" : GoString) then
              Query.wildcard filter.Field (("*" : GoString) ++ v ++ ("*" : GoString))
            else if filter.Selection = ("regex" : GoString) then Query.regexp filter.Field v
            else if filter.Selection = ("lte" : GoString) then
              Query.range { name := filter.Field, from_ := none, to_ := some (.str v),
                            includeLower := true, includeUpper := true }
            else
              Query.range { name := filter.Field, from_ := some (.str v), to_ := none,
                            includeLower := true, includeUpper := true }) ∧
      ∀ searchFilter : SearchFilter, values ≠ [] →
        BuildFilterQuery tp searchFilter [(name, values)] filterMap =
          (searchFilter.Filter bq, .nil) := by
  have hp := BuildFilterQuery_param_eq tp filterMap name values
  rw [hres, valueQueries_plain tp filter values hfmt hsel] at hp
  simp only [Step.map] at hp
  refine ⟨_, hp, ?_, ?_, ?_⟩
  · split_ifs <;> rfl
  · split_ifs <;> simp
  · intro searchFilter hv
    rw [BuildFilterQuery_single tp searchFilter filterMap name values hv, hp]

/-- C1 on the unknown parameter `status?` with the values `" a "`, `" "`, `"b"`: two
wildcard clauses `*a*` and `*b*` on the field `status`. -/
theorem C1_value_dispatch_witness :
    ∃ bq : FilterQuery,
      BuildFilterQuery_param sampleTime emptyCatalog ("status?" : GoString)
        [(" a " : GoString), (" " : GoString), ("b" : GoString)] = .ok bq ∧
      bq.mustClauses ++ bq.shouldClauses ++ bq.mustNotClauses =
        [Query.wildcard ("status" : GoString) ("*a*" : GoString),
         Query.wildcard ("status" : GoString) ("*b*" : GoString)] := by
  obtain ⟨bq, h1, -, h3, -⟩ :=
    C1_value_dispatch sampleTime emptyCatalog ("status?" : GoString)
      [(" a " : GoString), (" " : GoString), ("b" : GoString)]
      { Logic := "or", Selection := "wildcard", Field := "status" }
      (by decide) (by decide) (by decide)
  exact ⟨bq, h1, by rw [h3]; decide⟩

/-- C2 (inversion overrides logic). For a parameter whose name begins with `!`, whatever
filter it resolves to: when the value-level queries `qs` of the parameter are built, the
sub-query is the boolean query whose MUST-NOT list is `qs` and whose MUST, SHOULD and filter
lists are empty (an error or panic met on a value is the result otherwise). -/
theorem C2_inversion_overrides_logic (tp : TimePkg) (filterMap : FilterMap) (name : GoString)
    (values : List GoString) (h : strings.HasPrefix name "!" = true) :
    BuildFilterQuery_param tp filterMap name values =
      (valueQueries tp (BuildFilterQuery_resolve filterMap name).2.2 values).map (fun qs =>
        ({ mustClauses := [], mustNotClauses := qs, filterClauses := [], shouldClauses := [],
           queryName := strings.TrimLeft name "!" } : FilterQuery)) := by
  have hinv : (BuildFilterQuery_resolve filterMap name).1 = true := by
    simp only [BuildFilterQuery_resolve, h, if_true]
  have hname : (BuildFilterQuery_resolve filterMap name).2.1 = strings.TrimLeft name "!" := by
    simp only [BuildFilterQuery_resolve, h, if_true]
  rw [BuildFilterQuery_param_eq]
  simp only [hinv, hname, if_true]

/-- C2 on `!status=success` with the catalog entry `status` of logic `and`: the term query
is the only MUST-NOT clause. -/
theorem C2_inversion_overrides_logic_witness :
    BuildFilterQuery_param sampleTime sampleCatalog ("!status" : GoString)
        [("success" : GoString)] =
      .ok { mustClauses := [],
            mustNotClauses := [Query.term ("status" : GoString) (.str ("success" : GoString))],
            filterClauses := [], shouldClauses := [], queryName := ("status" : GoString) } :=
  (C2_inversion_overrides_logic sampleTime sampleCatalog ("!status" : GoString)
    [("success" : GoString)] (by decide)).trans (by decide)

/-- C3, as the code has it (logic combination). For a parameter whose name does not begin
with `!`: when the value-level queries `qs` of the parameter are built, they are the SHOULD
list of the sub-query when the `Logic` of the resolved filter is `or`, and its MUST list for
every other `Logic` (`and`, the empty string, any unrecognized string); the other lists are
empty. -/
theorem C3_logic_combination (tp : TimePkg) (filterMap : FilterMap) (name : GoString)
    (values : List GoString) (h : strings.HasPrefix name "!" = false) :
    BuildFilterQuery_param tp filterMap name values =
      (valueQueries tp (BuildFilterQuery_resolve filterMap name).2.2 values).map (fun qs =>
        if (BuildFilterQuery_resolve filterMap name).2.2.Logic = ("or" : GoString) then
          ({ mustClauses := [], mustNotClauses := [], filterClauses := [], shouldClauses := qs,
             queryName := name } : FilterQuery)
        else
          { mustClauses := qs, mustNotClauses := [], filterClauses := [], shouldClauses := [],
            queryName := name }) := by
  have hinv : (BuildFilterQuery_resolve filterMap name).1 = false := by
    simp only [BuildFilterQuery_resolve, h, Bool.false_eq_true, if_false]
  have hname : (BuildFilterQuery_resolve filterMap name).2.1 = name := by
    simp only [BuildFilterQuery_resolve, h, Bool.false_eq_true, if_false]
  rw [BuildFilterQuery_param_eq]
  simp only [hinv, hname, Bool.false_eq_true, if_false]

/-- C3 on `level=high`, the catalog entry `level` having the unrecognized logic `xor`: the
term query is a MUST clause. -/
theorem C3_logic_combination_witness :
    BuildFilterQuery_param sampleTime sampleCatalog ("level" : GoString)
        [("high" : GoString)] =
      .ok { mustClauses := [Query.term ("level" : GoString) (.str ("high" : GoString))],
            mustNotClauses := [], filterClauses := [], shouldClauses := [],
            queryName := ("level" : GoString) } :=
  (C3_logic_combination sampleTime sampleCatalog ("level" : GoString)
    [("high" : GoString)] (by decide)).trans (by decide)

/-- C3 as stated fails: with the empty string as `Logic` (neither `and` nor `or`),
`applyQueryLogic` without inversion adds the query to the MUST list and leaves the SHOULD
list empty. -/
theorem C3_unrecognized_logic_is_must :
    (applyQueryLogic { Selection := "multi", Logic := [], Field := "level" } {}
        (Query.term ("level" : GoString) (.str ("high" : GoString))) false).mustClauses =
      [Query.term ("level" : GoString) (.str ("high" : GoString))] ∧
    (applyQueryLogic { Selection := "multi", Logic := [], Field := "level" } {}
        (Query.term ("level" : GoString) (.str ("high" : GoString))) false).shouldClauses =
      [] := by
  decide

/-- C4 (unknown selection, raises-iff). On a catalog without a `date` entry of empty
`Format`: `BuildFilterQuery` returns an error exactly when some parameter has a value that
is non-empty after trimming and resolves to a filter whose `Selection` is none of multi,
date, text, wildcard, regex, lte, gte; the error is `Unknown Selection: ` followed by the
`Selection` of the first such parameter in processing order; without such a parameter the
result is nil. -/
theorem C4_unknown_selection_iff (tp : TimePkg) (searchFilter : SearchFilter)
    (filters : List (GoString × List GoString)) (filterMap : FilterMap)
    (hcat : ∀ k f, filterMap k = some f →
      ¬ (f.Selection = ("date" : GoString) ∧ f.Format = [])) :
    ((∃ msg, (BuildFilterQuery tp searchFilter filters filterMap).2 = .err msg) ↔
      ∃ p ∈ filters, (∃ v ∈ p.2, strings.Trim v " " ≠ []) ∧
        (BuildFilterQuery_resolve filterMap p.1).2.2.Selection ∉
          ([("multi" : GoString), "date", "text", "wildcard", "regex", "lte", "gte"] :
            List GoString)) ∧
    (∀ p, filters.find? (reachesDefault filterMap) = some p →
      (BuildFilterQuery tp searchFilter filters filterMap).2 =
        .err (("Unknown Selection: " : GoString) ++
          (BuildFilterQuery_resolve filterMap p.1).2.2.Selection)) ∧
    (filters.find? (reachesDefault filterMap) = none →
      (BuildFilterQuery tp searchFilter filters filterMap).2 = .nil) := by
  have hout := BuildFilterQuery_outcome tp searchFilter filters filterMap hcat
  have hiff : ∀ p : GoString × List GoString, reachesDefault filterMap p = true ↔
      ((∃ v ∈ p.2, strings.Trim v " " ≠ []) ∧
        (BuildFilterQuery_resolve filterMap p.1).2.2.Selection ∉
          ([("multi" : GoString), "date", "text", "wildcard", "regex", "lte", "gte"] :
            List GoString)) := by
    intro p
    simp only [reachesDefault, supportedSelections, Bool.and_eq_true, List.any_eq_true,
      decide_eq_true_eq]
  refine ⟨?_, ?_, ?_⟩
  · cases hf : filters.find? (reachesDefault filterMap) with
    | none =>
      rw [hf] at hout
      constructor
      · rintro ⟨msg, hmsg⟩
        rw [hout] at hmsg
        cases hmsg
      · rintro ⟨p, hp, hbad⟩
        have := List.find?_eq_none.mp hf p hp
        exact absurd ((hiff p).mpr hbad) this
    | some p =>
      rw [hf] at hout
      constructor
      · intro _
        exact ⟨p, List.mem_of_find?_eq_some hf, (hiff p).mp (List.find?_some hf)⟩
      · intro _
        exact ⟨_, hout⟩
  · intro p hf
    rw [hf] at hout
    exact hout
  · intro hf
    rw [hf] at hout
    exact hout

theorem sampleCatalog_dates_have_format : ∀ k f, sampleCatalog k = some f →
    ¬ (f.Selection = ("date" : GoString) ∧ f.Format = []) := by
  intro k f hk
  unfold sampleCatalog at hk
  split_ifs at hk <;> simp only [Option.some.injEq] at hk <;> subst hk <;> decide

/-- C4 on the sample catalog: `status=ok` compiles, `kind=[" ", "x"]` resolves to the
selection `single` and fails the call, the later parameter `zzz` is not reached. -/
theorem C4_unknown_selection_iff_witness :
    (BuildFilterQuery sampleTime {}
        [(("status" : GoString), [("ok" : GoString)]),
         (("kind" : GoString), [(" " : GoString), ("x" : GoString)]),
         (("zzz" : GoString), [("1" : GoString)])] sampleCatalog).2 =
      .err ("Unknown Selection: single" : GoString) :=
  ((C4_unknown_selection_iff sampleTime {}
      [(("status" : GoString), [("ok" : GoString)]),
       (("kind" : GoString), [(" " : GoString), ("x" : GoString)]),
       (("zzz" : GoString), [("1" : GoString)])] sampleCatalog
      sampleCatalog_dates_have_format).2.1
    (("kind" : GoString), [(" " : GoString), ("x" : GoString)]) (by decide)).trans (by decide)

/-- C5 as stated fails: on the unknown parameter `end_date`, whose synthesized filter has
the layout `2006-01-02`, the value `garbage` does not parse, and `BuildFilterQuery` returns
nil, having added a term query on the zero `Time` returned with the parse error. -/
theorem C5_parse_failure_returns_nil :
    (BuildFilterQuery_resolve emptyCatalog ("end_date" : GoString)).2.2.Format =
      ("2006-01-02" : GoString) ∧
    (sampleTime.Parse ("2006-01-02" : GoString) ("garbage" : GoString)).2 ≠ none ∧
    BuildFilterQuery sampleTime {} [(("end_date" : GoString), [("garbage" : GoString)])]
        emptyCatalog =
      ({ filterClauses :=
          [{ shouldClauses := [Query.term ("end_date" : GoString) (.time ⟨0, .UTC⟩)],
             queryName := ("end_date" : GoString) }] },
       .nil) := by
  decide

/-- C5, as the code has it (the parse error is discarded). For a parameter whose resolved
filter has a non-empty `Format` and a `Selection` among the case labels, whatever error
`time.Parse` returns for its values: the sub-query is built, and its clauses are exactly one
per value that is non-empty after trimming, in the order of the values, each built on the
`Time` that `time.Parse` returned for that value (location included, not set to UTC): a term
query on that `Time` for multi and text, the closed range from it to 24 hours later for
date, a wildcard query on `*` its printed form `*`, a regexp query on its printed form, a
range query bounded above resp. below by it for lte resp. gte. `BuildFilterQuery` on that
parameter returns nil and, with at least one value, adds this sub-query. -/
theorem C5_parse_error_discarded (tp : TimePkg) (filterMap : FilterMap) (name : GoString)
    (values : List GoString) (filter : Filter)
    (hres : (BuildFilterQuery_resolve filterMap name).2.2 = filter)
    (hfmt : filter.Format ≠ [])
    (hsel : filter.Selection ∈
      ([("multi" : GoString), "date", "text", "wildcard", "regex", "lte", "gte"] :
        List GoString)) :
    ∃ bq : FilterQuery,
      BuildFilterQuery_param tp filterMap name values = .ok bq ∧
      bq.filterClauses = [] ∧
      bq.mustClauses ++ bq.shouldClauses ++ bq.mustNotClauses =
        ((values.map (fun v => strings.Trim v " ")).filter (fun v => decide (v ≠ []))).map
          (fun v =>
            if filter.Selection = ("multi" : GoString) ∨
                filter.Selection = ("text" : GoString) then
              Query.term filter.Field (.time (tp.Parse filter.Format v).1)
            else if filter.Selection = ("date" : GoString) then
              Query.range
                { name := filter.Field,
                  from_ := some (.time (tp.Parse filter.Format v).1),
                  to_ := some (.time ⟨(tp.Parse filter.Format v).1.nsec +
                    24 * (3600 * 1000000000), (tp.Parse filter.Format v).1.loc⟩),
                  includeLower := true, includeUpper := true }
            else if filter.Selection = ("wildcard" : GoString) then
              Query.wildcard filter.Field
                (("*" : GoString) ++ tp.String (tp.Parse filter.Format v).1 ++
                  ("*" : GoString))
            else if filter.Selection = ("regex" : GoString) then
              Query.regexp filter.Field (tp.String (tp.Parse filter.Format v).1)
            else if filter.Selection = ("lte" : GoString) then
              Query.range { name := filter.Field, from_ := none,
                            to_ := some (.time (tp.Parse filter.Format v).1),
                            includeLower := true, includeUpper := true }
            else
              Query.range { name := filter.Field,
                            from_ := some (.time (tp.Parse filter.Format v).1), to_ := none,
                            includeLower := true, includeUpper := true }) ∧
      ∀ searchFilter : SearchFilter,
        (BuildFilterQuery tp searchFilter [(name, values)] filterMap).2 = .nil ∧
        (values ≠ [] →
          BuildFilterQuery tp searchFilter [(name, values)] filterMap =
            (searchFilter.Filter bq, .nil)) := by
  have hp := BuildFilterQuery_param_eq tp filterMap name values
  rw [hres, valueQueries_formatted tp filter values hfmt hsel] at hp
  simp only [Step.map] at hp
  refine ⟨_, hp, ?_, ?_, ?_⟩
  · by_cases h1 : (BuildFilterQuery_resolve filterMap name).1 = true
    · rw [if_pos h1]
    · rw [if_neg h1]
      by_cases h2 : filter.Logic = ("or" : GoString)
      · rw [if_pos h2]
      · rw [if_neg h2]
  · by_cases h1 : (BuildFilterQuery_resolve filterMap name).1 = true
    · rw [if_pos h1]
      simp only [List.nil_append, List.append_nil]
      rfl
    · rw [if_neg h1]
      by_cases h2 : filter.Logic = ("or" : GoString)
      · rw [if_pos h2]
        simp only [List.nil_append, List.append_nil]
        rfl
      · rw [if_neg h2]
        simp only [List.nil_append, List.append_nil]
        rfl
  · intro searchFilter
    constructor
    · by_cases hv : values = []
      · subst hv
        rfl
      · rw [BuildFilterQuery_single tp searchFilter filterMap name values hv, hp]
    · intro hv
      rw [BuildFilterQuery_single tp searchFilter filterMap name values hv, hp]

/-- C5 on the unknown parameter `created_datetime~` (selection regex, layout
`01/02/2006 15:04:05 MST`): the two values of one instant, in UTC and in `MST`, yield two
different regexp queries, and the unparsable value `garbage` yields the regexp query on the
printed zero `Time`; no error is returned. -/
theorem C5_parse_error_discarded_witness :
    (sampleTime.Parse ("01/02/2006 15:04:05 MST" : GoString) ("garbage" : GoString)).2 ≠
      none ∧
    BuildFilterQuery sampleTime {}
        [(("created_datetime~" : GoString),
          [("01/27/2017 00:00:00 UTC" : GoString), ("01/27/2017 00:00:00 MST" : GoString),
           ("garbage" : GoString)])] emptyCatalog =
      ({ filterClauses :=
          [{ shouldClauses :=
               [Query.regexp ("created_datetime" : GoString)
                  ("2017-01-27 00:00:00 +0000 UTC" : GoString),
                Query.regexp ("created_datetime" : GoString)
                  ("2017-01-27 00:00:00 +0000 MST" : GoString),
                Query.regexp ("created_datetime" : GoString)
                  ("0001-01-01 00:00:00 +0000 UTC" : GoString)],
             queryName := ("created_datetime~" : GoString) }] },
       .nil) := by
  obtain ⟨bq, hbq, -, -, hall⟩ :=
    C5_parse_error_discarded sampleTime emptyCatalog ("created_datetime~" : GoString)
      [("01/27/2017 00:00:00 UTC" : GoString), ("01/27/2017 00:00:00 MST" : GoString),
       ("garbage" : GoString)]
      { Logic := "or", Selection := "regex", Field := "created_datetime",
        Format := "01/02/2006 15:04:05 MST" }
      (by decide) (by decide) (by decide)
  refine ⟨by decide, ?_⟩
  rw [(hall {}).2 (by decide)]
  have hparam : BuildFilterQuery_param sampleTime emptyCatalog
      ("created_datetime~" : GoString)
      [("01/27/2017 00:00:00 UTC" : GoString), ("01/27/2017 00:00:00 MST" : GoString),
       ("garbage" : GoString)] =
      .ok { shouldClauses :=
              [Query.regexp ("created_datetime" : GoString)
                 ("2017-01-27 00:00:00 +0000 UTC" : GoString),
               Query.regexp ("created_datetime" : GoString)
                 ("2017-01-27 00:00:00 +0000 MST" : GoString),
               Query.regexp ("created_datetime" : GoString)
                 ("0001-01-01 00:00:00 +0000 UTC" : GoString)],
            queryName := ("created_datetime~" : GoString) } := by decide
  rw [hparam] at hbq
  cases hbq
  rfl

/-- C6 as stated fails: for the catalog filter `end_date` (selection `date`, layout
`2006-01-02`) and the value `2017-01-27`, the range query runs from 2017-01-27T00:00:00Z to
2017-01-28T00:00:00Z and its upper bound is inclusive (`includeUpper` is true), as is its
lower bound; it is not the half-open query with `includeUpper` false. -/
theorem C6_upper_bound_is_inclusive :
    BuildFilterQuery_value sampleTime
        { Selection := "date", Logic := "or", Field := "end_date", Format := "2006-01-02" }
        ("2017-01-27" : GoString) =
      .ok (Query.range
        { name := ("end_date" : GoString),
          from_ := some (.time ⟨63621072000000000000, .UTC⟩),
          to_ := some (.time ⟨63621158400000000000, .UTC⟩),
          includeLower := true, includeUpper := true }) ∧
    BuildFilterQuery_value sampleTime
        { Selection := "date", Logic := "or", Field := "end_date", Format := "2006-01-02" }
        ("2017-01-27" : GoString) ≠
      .ok (Query.range
        { name := ("end_date" : GoString),
          from_ := some (.time ⟨63621072000000000000, .UTC⟩),
          to_ := some (.time ⟨63621158400000000000, .UTC⟩),
          includeLower := true, includeUpper := false }) := by
  decide

/-- C6, as the code has it (date selection). For a filter with `Selection` `date` and a
non-empty `Format`, and a value that parses under that `Format` to the instant `t`, the
value-level query is a range query on `Field` with lower bound `t`, upper bound
`t + 24 hours` (in the location of `t`), and both bounds inclusive: the closed interval
from `t` to `t + 24h`. -/
theorem C6_date_range (tp : TimePkg) (filter : Filter) (val : GoString) (t : Time)
    (hsel : filter.Selection = ("date" : GoString)) (hfmt : filter.Format ≠ [])
    (hparse : tp.Parse filter.Format val = (t, none)) :
    BuildFilterQuery_value tp filter val =
      .ok (Query.range
        { name := filter.Field,
          from_ := some (.time t),
          to_ := some (.time ⟨t.nsec + 24 * (3600 * 1000000000), t.loc⟩),
          includeLower := true, includeUpper := true }) := by
  have hmem : filter.Selection ∈ supportedSelections := by
    rw [hsel]
    decide
  rw [BuildFilterQuery_value_formatted tp filter val hfmt hmem, hparse, hsel]
  rfl

/-- C6 on the date-range scenario: `end_date` with the layout `2006-01-02` and the value
`2017-01-27`. -/
theorem C6_date_range_witness :
    BuildFilterQuery_value sampleTime
        { Selection := "date", Logic := "or", Field := "end_date", Format := "2006-01-02" }
        ("2017-01-27" : GoString) =
      .ok (Query.range
        { name := ("end_date" : GoString),
          from_ := some (.time ⟨736355 * 24 * Hour, .UTC⟩),
          to_ := some (.time ⟨736355 * 24 * Hour + 24 * (3600 * 1000000000), .UTC⟩),
          includeLower := true, includeUpper := true }) :=
  C6_date_range sampleTime
    { Selection := "date", Logic := "or", Field := "end_date", Format := "2006-01-02" }
    ("2017-01-27" : GoString) ⟨736355 * 24 * Hour, .UTC⟩ (by decide) (by decide) (by decide)

/-- C7 as stated fails: `a?<` ends with `<`, the first sigil of the priority order, yet the
`Selection` is `wildcard`: the `<` block leaves `a?`, on which the later `?` block matches
and overwrites `lte`. -/
theorem C7_later_suffix_overrides :
    strings.HasSuffix ("a?<" : GoString) "<" = true ∧
    (buildCustomQuery ("a?<" : GoString)).Selection = ("wildcard" : GoString) ∧
    (buildCustomQuery ("a?<" : GoString)).Selection ≠ ("lte" : GoString) := by
  decide

/-- C7, as the code has it (suffix checks in sequence). With `n` the name left by the `+`
block and `n1`, `n2`, `n3` the names left by the `<`, `>` and `~` blocks, each block testing
the name left by the one before it: `Selection` is that of the last block that matched. It
is wildcard if `n3` has the suffix `?`, otherwise regex if `n2` has the suffix `~`,
otherwise gte if `n1` has the suffix `>`, otherwise lte if `n` has the suffix `<`, otherwise
multi. When at most one block matches, this is the priority rule on `n` itself: lte if `n`
has the suffix `<`, otherwise gte if it has the suffix `>`, otherwise regex if it has the
suffix `~`, otherwise wildcard if it has the suffix `?`, otherwise multi. -/
theorem C7_suffix_checks_in_sequence (name n n1 n2 n3 : GoString)
    (e0 : n = if strings.HasPrefix name "+" then strings.TrimLeft name "+" else name)
    (e1 : n1 = if strings.HasSuffix n "<" then strings.TrimRight n "<" else n)
    (e2 : n2 = if strings.HasSuffix n1 ">" then strings.TrimRight n1 ">" else n1)
    (e3 : n3 = if strings.HasSuffix n2 "~" then strings.TrimRight n2 "~" else n2) :
    (buildCustomQuery name).Selection =
      (if strings.HasSuffix n3 "?" then ("wildcard" : GoString)
       else if strings.HasSuffix n2 "~" then "regex"
       else if strings.HasSuffix n1 ">" then "gte"
       else if strings.HasSuffix n "<" then "lte"
       else "multi") ∧
    ((strings.HasSuffix n "<" = true →
        strings.HasSuffix n1 ">" = false ∧ strings.HasSuffix n2 "~" = false ∧
          strings.HasSuffix n3 "?" = false) →
      (strings.HasSuffix n1 ">" = true →
        strings.HasSuffix n2 "~" = false ∧ strings.HasSuffix n3 "?" = false) →
      (strings.HasSuffix n2 "~" = true → strings.HasSuffix n3 "?" = false) →
      (buildCustomQuery name).Selection =
        (if strings.HasSuffix n "<" then ("lte" : GoString)
         else if strings.HasSuffix n ">" then "gte"
         else if strings.HasSuffix n "~" then "regex"
         else if strings.HasSuffix n "?" then "wildcard"
         else "multi")) := by
  have hsel : (buildCustomQuery name).Selection =
      (if strings.HasSuffix n3 "?" then ("wildcard" : GoString)
       else if strings.HasSuffix n2 "~" then "regex"
       else if strings.HasSuffix n1 ">" then "gte"
       else if strings.HasSuffix n "<" then "lte"
       else "multi") := by
    rw [buildCustomQuery_eq name n n1 n2 n3 _ e0 e1 e2 e3 rfl]
  refine ⟨hsel, ?_⟩
  intro h1 h2 h3
  rw [hsel]
  by_cases c1 : strings.HasSuffix n "<" = true
  · obtain ⟨a2, a3, a4⟩ := h1 c1
    simp only [c1, a2, a3, a4, if_true, Bool.false_eq_true, if_false]
  · rw [if_neg c1] at e1
    subst e1
    by_cases c2 : strings.HasSuffix n1 ">" = true
    · obtain ⟨a3, a4⟩ := h2 c2
      simp only [c1, c2, a3, a4, if_true, Bool.false_eq_true, if_false]
    · rw [if_neg c2] at e2
      subst e2
      by_cases c3 : strings.HasSuffix n2 "~" = true
      · have a4 := h3 c3
        simp only [c1, c2, c3, a4, if_true, Bool.false_eq_true, if_false]
      · rw [if_neg c3] at e3
        subst e3
        simp only [c1, c2, c3, Bool.false_eq_true, if_false]

/-- C7 on `+end_date>`: only the `>` block matches, and the `Selection` is gte. -/
theorem C7_suffix_checks_in_sequence_witness :
    (buildCustomQuery ("+end_date>" : GoString)).Selection = ("gte" : GoString) :=
  ((C7_suffix_checks_in_sequence ("+end_date>" : GoString) ("end_date>" : GoString)
      ("end_date>" : GoString) ("end_date" : GoString) ("end_date" : GoString)
      (by decide) (by decide) (by decide) (by decide)).2
    (by decide) (by decide) (by decide)).trans (by decide)

/-- C8 (logic of an unknown field). For a parameter whose name does not begin with `!` and
is absent from the catalog: `buildCustomQuery` yields the logic `and` when the name begins
with `+` and `or` otherwise; the value-level queries are all built, one per value that is
non-empty after trimming, and they are the MUST list of the sub-query when the name begins
with `+` and its SHOULD list otherwise, the other clause lists being empty. -/
theorem C8_unknown_field_logic (tp : TimePkg) (filterMap : FilterMap) (name : GoString)
    (values : List GoString) (hnot : strings.HasPrefix name "!" = false)
    (habs : filterMap name = none) :
    (buildCustomQuery name).Logic =
        (if strings.HasPrefix name "+" then ("and" : GoString) else "or") ∧
    ∃ qs, valueQueries tp (buildCustomQuery name) values = .ok qs ∧
      qs.length = (values.filter (fun v => decide (strings.Trim v " " ≠ []))).length ∧
      BuildFilterQuery_param tp filterMap name values = .ok
        (if strings.HasPrefix name "+" then
          ({ mustClauses := qs, mustNotClauses := [], filterClauses := [],
             shouldClauses := [], queryName := name } : FilterQuery)
        else
          { mustClauses := [], mustNotClauses := [], filterClauses := [],
            shouldClauses := qs, queryName := name }) := by
  have hres : BuildFilterQuery_resolve filterMap name = (false, name, buildCustomQuery name) := by
    simp only [BuildFilterQuery_resolve, hnot, Bool.false_eq_true, if_false, habs]
  have hmem : (buildCustomQuery name).Selection ∈ supportedSelections := by
    have := buildCustomQuery_selection name
    revert this
    generalize (buildCustomQuery name).Selection = sel
    intro h
    simp only [List.mem_cons, List.mem_singleton, List.not_mem_nil, or_false] at h
    rcases h with h | h | h | h | h <;> rw [h] <;> decide
  have hdate : ¬ ((buildCustomQuery name).Selection = ("date" : GoString) ∧
      (buildCustomQuery name).Format = []) := by
    intro h
    have := buildCustomQuery_selection name
    rw [h.1] at this
    revert this
    decide
  obtain ⟨qs, hqs, hlen⟩ := valueQueries_supported tp _ values hmem hdate
  refine ⟨buildCustomQuery_logic name, qs, hqs, hlen, ?_⟩
  rw [BuildFilterQuery_param_eq, hres]
  simp only [hqs, Step.map, Bool.false_eq_true, if_false, buildCustomQuery_logic]
  by_cases hp : strings.HasPrefix name "+" = true
  · simp only [hp, if_true]
    rw [if_neg (by decide)]
  · simp only [hp, Bool.false_eq_true, if_false, if_true]

/-- C8 on `+priority=1` with the empty catalog: the term query is the only MUST clause. -/
theorem C8_unknown_field_logic_witness :
    BuildFilterQuery_param sampleTime emptyCatalog ("+priority" : GoString)
        [("1" : GoString)] =
      .ok { mustClauses := [Query.term ("priority" : GoString) (.str ("1" : GoString))],
            mustNotClauses := [], filterClauses := [], shouldClauses := [],
            queryName := ("+priority" : GoString) } := by
  obtain ⟨-, qs, hqs, -, hp⟩ :=
    C8_unknown_field_logic sampleTime emptyCatalog ("+priority" : GoString)
      [("1" : GoString)] (by decide) rfl
  have hq : valueQueries sampleTime (buildCustomQuery ("+priority" : GoString))
      [("1" : GoString)] =
      .ok [Query.term ("priority" : GoString) (.str ("1" : GoString))] := by decide
  rw [hq] at hqs
  cases hqs
  rw [hp]
  decide

/-- C9 as stated fails: `++a<<` yields the logic `and`, the field `a` and the selection
lte, and `+` followed by `a` followed by `<` is `+a<`, not the input: both `+` and both `<`
are removed. -/
theorem C9_runs_are_stripped_whole :
    buildCustomQuery ("++a<<" : GoString) =
      { Logic := "and", Selection := "lte", Field := "a" } ∧
    ("++a<<" : GoString) ≠ ("+" : GoString) ++ ("a" : GoString) ++ ("<" : GoString) := by
  decide

/-- C9, as the code has it (what the sigil parser strips). Every name is a run of `p`
characters `+`, then the resulting `Field`, then runs of `d` characters `?`, `c` characters
`~`, `b` characters `>` and `a` characters `<`, in this order; the `Logic` is `and` exactly
when the `+` run is non-empty and `or` exactly when it is empty; the `Selection` is
wildcard, regex, gte or lte after the first non-empty run among `?`, `~`, `>`, `<` in this
order, and multi when all four are empty. Every run is removed whole: what follows the `+`
run does not begin with `+`, what precedes the `<` run does not end with `<`, what precedes
the `>` run does not end with `>`, what precedes the `~` run does not end with `~`, and the
`Field` does not end with `?`. When the `+` run has at most one character and the four
sigil runs together have at most one, the name is `+` (present when the `Logic` is `and`),
then `Field`, then the sigil of the `Selection`. -/
theorem C9_sigil_runs (name : GoString) :
    ∃ p a b c d : Nat,
      name = List.replicate p '+' ++ (buildCustomQuery name).Field ++ List.replicate d '?' ++
        List.replicate c '~' ++ List.replicate b '>' ++ List.replicate a '<' ∧
      ((buildCustomQuery name).Logic = ("and" : GoString) ↔ 0 < p) ∧
      ((buildCustomQuery name).Logic = ("or" : GoString) ↔ p = 0) ∧
      (buildCustomQuery name).Selection =
        (if 0 < d then ("wildcard" : GoString)
         else if 0 < c then "regex"
         else if 0 < b then "gte"
         else if 0 < a then "lte"
         else "multi") ∧
      ((buildCustomQuery name).Field ++ List.replicate d '?' ++ List.replicate c '~' ++
        List.replicate b '>' ++ List.replicate a '<').head? ≠ some '+' ∧
      ((buildCustomQuery name).Field ++ List.replicate d '?' ++ List.replicate c '~' ++
        List.replicate b '>').getLast? ≠ some '<' ∧
      ((buildCustomQuery name).Field ++ List.replicate d '?' ++
        List.replicate c '~').getLast? ≠ some '>' ∧
      ((buildCustomQuery name).Field ++ List.replicate d '?').getLast? ≠ some '~' ∧
      (buildCustomQuery name).Field.getLast? ≠ some '?' ∧
      (p ≤ 1 → a + b + c + d ≤ 1 →
        name =
          (if (buildCustomQuery name).Logic = ("and" : GoString) then ("+" : GoString) else []) ++
          (buildCustomQuery name).Field ++
          (if (buildCustomQuery name).Selection = ("lte" : GoString) then ("<" : GoString)
           else if (buildCustomQuery name).Selection = ("gte" : GoString) then ">"
           else if (buildCustomQuery name).Selection = ("regex" : GoString) then "~"
           else if (buildCustomQuery name).Selection = ("wildcard" : GoString) then "?"
           else [])) := by
  obtain ⟨p, a, b, c, d, hname, hand, hor, hsel, m0, m1, m2, m3, m4⟩ :=
    buildCustomQuery_runs name
  refine ⟨p, a, b, c, d, hname, hand, hor, hsel, m0, m1, m2, m3, m4, ?_⟩
  intro hp hs
  have hplus : (if (buildCustomQuery name).Logic = ("and" : GoString) then ("+" : GoString)
      else []) = List.replicate p '+' := by
    by_cases h0 : 0 < p
    · have h1 : p = 1 := by omega
      rw [if_pos (hand.mpr h0), h1]
      rfl
    · have h1 : p = 0 := by omega
      rw [if_neg (fun h => h0 (hand.mp h)), h1]
      rfl
  have hsig : (if (buildCustomQuery name).Selection = ("lte" : GoString) then ("<" : GoString)
       else if (buildCustomQuery name).Selection = ("gte" : GoString) then ">"
       else if (buildCustomQuery name).Selection = ("regex" : GoString) then "~"
       else if (buildCustomQuery name).Selection = ("wildcard" : GoString) then "?"
       else []) =
      List.replicate d '?' ++ List.replicate c '~' ++ List.replicate b '>' ++
        List.replicate a '<' := by
    rw [hsel]
    have hcases : (a = 0 ∧ b = 0 ∧ c = 0 ∧ d = 0) ∨ (a = 1 ∧ b = 0 ∧ c = 0 ∧ d = 0) ∨
        (a = 0 ∧ b = 1 ∧ c = 0 ∧ d = 0) ∨ (a = 0 ∧ b = 0 ∧ c = 1 ∧ d = 0) ∨
        (a = 0 ∧ b = 0 ∧ c = 0 ∧ d = 1) := by omega
    rcases hcases with ⟨h1, h2, h3, h4⟩ | ⟨h1, h2, h3, h4⟩ | ⟨h1, h2, h3, h4⟩ |
      ⟨h1, h2, h3, h4⟩ | ⟨h1, h2, h3, h4⟩ <;> subst h1 h2 h3 h4 <;> decide
  rw [hplus, hsig]
  conv_lhs => rw [hname]
  simp only [List.append_assoc]

/-- C10 (date format of the sigil parser). For every name, the `Format` of the filter
returned by `buildCustomQuery` is `2006-01-02` exactly when the returned `Field` ends with
`_date`, is `01/02/2006 15:04:05 MST` exactly when it ends with `_datetime`, and is empty
exactly when it ends with neither. -/
theorem C10_format_of_field (name : GoString) :
    ((buildCustomQuery name).Format = ("2006-01-02" : GoString) ↔
      strings.HasSuffix (buildCustomQuery name).Field "_date" = true) ∧
    ((buildCustomQuery name).Format = ("01/02/2006 15:04:05 MST" : GoString) ↔
      strings.HasSuffix (buildCustomQuery name).Field "_datetime" = true) ∧
    ((buildCustomQuery name).Format = [] ↔
      (strings.HasSuffix (buildCustomQuery name).Field "_date" = false ∧
        strings.HasSuffix (buildCustomQuery name).Field "_datetime" = false)) := by
  obtain ⟨n0, n1, n2, n3, n4, e0, e1, e2, e3, e4⟩ := buildCustomQuery_stages name
  have hq := buildCustomQuery_eq name n0 n1 n2 n3 n4 e0 e1 e2 e3 e4
  have hf : (buildCustomQuery name).Field = n4 := by rw [hq]
  have hfmt : (buildCustomQuery name).Format =
      (if strings.HasSuffix n4 "_datetime" then ("01/02/2006 15:04:05 MST" : GoString)
       else if strings.HasSuffix n4 "_date" then "2006-01-02"
       else []) := by rw [hq]
  rw [hf, hfmt]
  have hxy : ¬ (strings.HasSuffix n4 "_date" = true ∧
      strings.HasSuffix n4 "_datetime" = true) :=
    fun h => not_date_and_datetime n4 h.1 h.2
  revert hxy
  cases strings.HasSuffix n4 "_date" <;> cases strings.HasSuffix n4 "_datetime" <;> simp

/-- C11 as stated fails: the parameter `+=x` is absent from the empty catalog and is
compiled, `BuildFilterQuery` returning nil, and the filter synthesized from its name has the
empty `Field`, on which the term query is built. -/
theorem C11_synthesized_field_can_be_empty :
    (BuildFilterQuery_resolve emptyCatalog ("+" : GoString)).2.2.Field = [] ∧
    BuildFilterQuery sampleTime {} [(("+" : GoString), [("x" : GoString)])] emptyCatalog =
      ({ filterClauses :=
          [{ mustClauses := [Query.term [] (.str ("x" : GoString))],
             queryName := ("+" : GoString) }] },
       .nil) := by
  decide

/-- C11, as the code has it (field of a synthesized filter). For a parameter name that is
absent from the catalog once its leading `!` characters are removed, the `Field` of the
filter synthesized from it is empty exactly when the name so stripped is a run of `+`
followed by runs of `?`, `~`, `>` and `<` in this order (the empty name included); the
`Field` is non-empty for every other name, in particular whenever the stripped name holds a
character other than `+`, `?`, `~`, `>`, `<`. -/
theorem C11_field_empty_iff (filterMap : FilterMap) (name : GoString)
    (habs : filterMap (BuildFilterQuery_resolve filterMap name).2.1 = none) :
    ((BuildFilterQuery_resolve filterMap name).2.2.Field = [] ↔
      ∃ p a b c d : Nat,
        (BuildFilterQuery_resolve filterMap name).2.1 =
          List.replicate p '+' ++ (List.replicate d '?' ++ List.replicate c '~' ++
            List.replicate b '>' ++ List.replicate a '<')) ∧
    ((∃ x ∈ (BuildFilterQuery_resolve filterMap name).2.1,
        x ∉ (['+', '?', '~', '>', '<'] : List Char)) →
      (BuildFilterQuery_resolve filterMap name).2.2.Field ≠ []) := by
  have hres : (BuildFilterQuery_resolve filterMap name).2.2 =
      buildCustomQuery (BuildFilterQuery_resolve filterMap name).2.1 := by
    unfold BuildFilterQuery_resolve at habs ⊢
    split_ifs at habs ⊢ <;> simp only [] at habs ⊢ <;> rw [habs]
  rw [hres]
  generalize (BuildFilterQuery_resolve filterMap name).2.1 = n
  have hiff : (buildCustomQuery n).Field = [] ↔
      ∃ p a b c d : Nat,
        n = List.replicate p '+' ++ (List.replicate d '?' ++ List.replicate c '~' ++
          List.replicate b '>' ++ List.replicate a '<') := by
    constructor
    · intro hf
      obtain ⟨p, a, b, c, d, hname, -⟩ := buildCustomQuery_runs n
      rw [hf] at hname
      refine ⟨p, a, b, c, d, ?_⟩
      conv_lhs => rw [hname]
      simp only [List.append_nil, List.append_assoc]
    · rintro ⟨p, a, b, c, d, hn⟩
      rw [hn]
      exact buildCustomQuery_field_of_runs p a b c d
  refine ⟨hiff, ?_⟩
  rintro ⟨x, hx, hnot⟩ hf
  obtain ⟨p, a, b, c, d, hn⟩ := hiff.mp hf
  rw [hn] at hx
  simp only [List.mem_append, List.mem_replicate] at hx
  apply hnot
  rcases hx with ⟨-, h⟩ | (((⟨-, h⟩ | ⟨-, h⟩) | ⟨-, h⟩) | ⟨-, h⟩) <;> rw [h] <;> decide

/-- C11 on `!end_date<` with the empty catalog: the stripped name `end_date<` holds the
character `e`, and the `Field` is `end_date`. -/
theorem C11_field_empty_iff_witness :
    (BuildFilterQuery_resolve emptyCatalog ("!end_date<" : GoString)).2.2.Field ≠ [] :=
  (C11_field_empty_iff emptyCatalog ("!end_date<" : GoString) rfl).2
    ⟨'e', by decide, by decide⟩

/-- C12 as stated fails: a value made of one tab, a whitespace character, is not dropped.
On the unknown parameter `status` it yields a term query on the tab, and on the catalog
parameter `kind`, whose selection `single` is no case label, it fails the call. -/
theorem C12_tab_is_not_dropped :
    (Char.ofNat 9).isWhitespace = true ∧
    BuildFilterQuery_param sampleTime emptyCatalog ("status" : GoString) [[Char.ofNat 9]] =
      .ok { shouldClauses := [Query.term ("status" : GoString) (.str [Char.ofNat 9])],
            queryName := ("status" : GoString) } ∧
    (BuildFilterQuery sampleTime {} [(("kind" : GoString), [[Char.ofNat 9]])]
        sampleCatalog).2 = .err ("Unknown Selection: single" : GoString) := by
  decide

/-- C12, as the code has it (values of spaces are dropped). For every parameter, whatever
filter it resolves to (any `Format`, any `Selection`), and every value `v` of it that is
empty or made of space characters only: the value-level queries, the sub-query of the
parameter and the way `BuildFilterQuery` ends are those obtained without `v`; when the
parameter has another value, the accumulator is the same as well. -/
theorem C12_blank_values_dropped (tp : TimePkg) (filterMap : FilterMap) (name : GoString)
    (filter : Filter) (pre post : List GoString) (v : GoString) (h : ∀ c ∈ v, c = ' ') :
    valueQueries tp filter (pre ++ v :: post) = valueQueries tp filter (pre ++ post) ∧
    BuildFilterQuery_param tp filterMap name (pre ++ v :: post) =
      BuildFilterQuery_param tp filterMap name (pre ++ post) ∧
    (∀ searchFilter : SearchFilter,
      (BuildFilterQuery tp searchFilter [(name, pre ++ v :: post)] filterMap).2 =
        (BuildFilterQuery tp searchFilter [(name, pre ++ post)] filterMap).2) ∧
    (pre ++ post ≠ [] → ∀ searchFilter : SearchFilter,
      BuildFilterQuery tp searchFilter [(name, pre ++ v :: post)] filterMap =
        BuildFilterQuery tp searchFilter [(name, pre ++ post)] filterMap) := by
  have hb : strings.Trim v " " = [] := (trim_eq_nil_iff v).mpr h
  have hparam : BuildFilterQuery_param tp filterMap name (pre ++ v :: post) =
      BuildFilterQuery_param tp filterMap name (pre ++ post) := by
    rw [BuildFilterQuery_param_eq, BuildFilterQuery_param_eq,
      valueQueries_skip_blank tp _ pre post v hb]
  have hne : pre ++ v :: post ≠ [] := by simp
  refine ⟨valueQueries_skip_blank tp filter pre post v hb, hparam, ?_, ?_⟩
  · intro searchFilter
    rw [BuildFilterQuery_single tp searchFilter filterMap name _ hne, hparam]
    by_cases hrest : pre ++ post = []
    · rw [hrest, BuildFilterQuery_param_eq]
      simp only [valueQueries, Step.map, BuildFilterQuery, List.length_nil, if_true]
    · rw [BuildFilterQuery_single tp searchFilter filterMap name _ hrest]
  · intro hrest searchFilter
    rw [BuildFilterQuery_single tp searchFilter filterMap name _ hne,
      BuildFilterQuery_single tp searchFilter filterMap name _ hrest, hparam]

/-- C12 on the catalog parameter `kind` (selection `single`) with the single value of two
spaces: no query, no error. -/
theorem C12_blank_values_dropped_witness :
    (BuildFilterQuery sampleTime {} [(("kind" : GoString), [("  " : GoString)])]
        sampleCatalog).2 = .nil :=
  ((C12_blank_values_dropped sampleTime sampleCatalog ("kind" : GoString) {} [] []
      ("  " : GoString) (by decide)).2.2.1 {}).trans (by decide)

/-- C13 as stated fails: for the parameter `!status` the sub-query added to the accumulator
is named `status`, without the leading `!` of the key. -/
theorem C13_name_loses_inversion_mark :
    BuildFilterQuery sampleTime {} [(("!status" : GoString), [("success" : GoString)])]
        sampleCatalog =
      ({ filterClauses :=
          [{ mustNotClauses :=
               [Query.term ("status" : GoString) (.str ("success" : GoString))],
             queryName := ("status" : GoString) }] },
       .nil) ∧
    ("status" : GoString) ≠ ("!status" : GoString) := by
  decide

/-- C13, as the code has it (sub-query naming). Whenever the sub-query of a parameter is
built, its name is the parameter name with its leading `!` characters removed (every `+`
and suffix sigil kept), which is the key itself when the key does not begin with `!`; and
when `BuildFilterQuery` returns nil, the names of the sub-queries it added are, in order,
the names so stripped of the parameters with at least one value. -/
theorem C13_sub_query_name (tp : TimePkg) (filterMap : FilterMap)
    (searchFilter : SearchFilter) (filters : List (GoString × List GoString))
    (hnil : (BuildFilterQuery tp searchFilter filters filterMap).2 = .nil) :
    (∀ name values bq, BuildFilterQuery_param tp filterMap name values = .ok bq →
      bq.queryName =
        if strings.HasPrefix name "!" then strings.TrimLeft name "!" else name) ∧
    (BuildFilterQuery tp searchFilter filters filterMap).1.filterClauses.map
        (fun bq => bq.queryName) =
      searchFilter.filterClauses.map (fun bq => bq.queryName) ++
        (filters.filter (fun p => decide (p.2 ≠ []))).map (fun p =>
          if strings.HasPrefix p.1 "!" then strings.TrimLeft p.1 "!" else p.1) := by
  refine ⟨fun name values bq h => BuildFilterQuery_param_queryName tp filterMap name values bq h,
    ?_⟩
  rw [BuildFilterQuery_eq_subQueries] at hnil ⊢
  simp only [] at hnil
  have hall := subQueries_nil tp filterMap filters hnil
  simp only [List.map_append]
  congr 1
  generalize (subQueries tp filterMap filters).1 = subs at hall
  generalize filters.filter (fun p => decide (p.2 ≠ [])) = ps at hall
  induction hall with
  | nil => rfl
  | cons hq _ ih =>
    simp only [List.map_cons, ih,
      BuildFilterQuery_param_queryName tp filterMap _ _ _ hq]

/-- C13 on the parameters `+priority=1` and `!end_date<=2017-01-27` with the empty catalog:
the sub-queries are named `+priority` and `end_date<`. -/
theorem C13_sub_query_name_witness :
    (BuildFilterQuery sampleTime {}
        [(("+priority" : GoString), [("1" : GoString)]),
         (("!end_date<" : GoString), [("2017-01-27" : GoString)])]
        emptyCatalog).1.filterClauses.map (fun bq => bq.queryName) =
      [("+priority" : GoString), ("end_date<" : GoString)] :=
  ((C13_sub_query_name sampleTime emptyCatalog {}
      [(("+priority" : GoString), [("1" : GoString)]),
       (("!end_date<" : GoString), [("2017-01-27" : GoString)])] (by decide)).2).trans
    (by decide)

/-- C14 (result of `BuildAggregationQuery`). For every list of filter groups the returned
error is nil; a field name `k` is a key of the returned map exactly when some filter of some
group has `Field = k`, `Static = false` and the selection `multi` or `single`; and the value
stored at a key `k` is the terms aggregation on the field `k` with size 0. -/
theorem C14_aggregation_result (fg : List FilterGroup) (k : GoString) :
    (BuildAggregationQuery fg).2 = none ∧
    (((BuildAggregationQuery fg).1 k).isSome = true ↔
      ∃ g ∈ fg, ∃ f ∈ g.Filters, f.Field = k ∧ f.Static = false ∧
        (f.Selection = ("multi" : GoString) ∨ f.Selection = ("single" : GoString))) ∧
    (∀ a, (BuildAggregationQuery fg).1 k = some a → a = { field := k, size := some 0 }) := by
  refine ⟨rfl, ?_, ?_⟩
  · rcases aggregation_outer fg (fun _ => none) k with ⟨hex, hres⟩ | ⟨hnex, hres⟩
    · simp only [BuildAggregationQuery, hres, Option.isSome_some, true_iff]
      exact hex
    · simp only [BuildAggregationQuery, hres, Option.isSome_none, Bool.false_eq_true,
        false_iff]
      exact hnex
  · intro a ha
    rcases aggregation_outer fg (fun _ => none) k with ⟨-, hres⟩ | ⟨-, hres⟩
    · simp only [BuildAggregationQuery, hres, Option.some.injEq] at ha
      exact ha.symm
    · simp only [BuildAggregationQuery, hres] at ha
      cases ha

/-- C15 (`ReplaceFilter` overwrites every match and nothing else). After `ReplaceFilter(f)`
the `Filters` sequence has the same length; every position whose entry had the `Field` of
`f` holds `f`, and every other position holds its entry unchanged; `Label` and `Class` are
unchanged; and when no entry has the `Field` of `f`, the group is unchanged. -/
theorem C15_replace_filter (g : FilterGroup) (f : Filter) :
    (g.ReplaceFilter f).Filters.length = g.Filters.length ∧
    (∀ (i : Nat) (old : Filter), g.Filters[i]? = some old →
      (old.Field = f.Field → (g.ReplaceFilter f).Filters[i]? = some f) ∧
      (old.Field ≠ f.Field → (g.ReplaceFilter f).Filters[i]? = some old)) ∧
    (g.ReplaceFilter f).Label = g.Label ∧
    (g.ReplaceFilter f).Class = g.Class ∧
    ((∀ x ∈ g.Filters, x.Field ≠ f.Field) → g.ReplaceFilter f = g) := by
  refine ⟨?_, ?_, rfl, rfl, ?_⟩
  · simp only [FilterGroup.ReplaceFilter, List.length_map]
  · intro i old hi
    constructor
    · intro hf
      simp only [FilterGroup.ReplaceFilter, List.getElem?_map, hi, Option.map_some', hf,
        if_true]
    · intro hf
      simp only [FilterGroup.ReplaceFilter, List.getElem?_map, hi, Option.map_some', hf,
        if_false]
  · intro hno
    have hmap : g.Filters.map (fun fil => if fil.Field = f.Field then f else fil) =
        g.Filters := by
      conv_rhs => rw [← List.map_id g.Filters]
      apply List.map_congr_left
      intro x hx
      simp only [hno x hx, if_false, id]
    simp only [FilterGroup.ReplaceFilter, hmap]

/-- C15 on the sample group and a filter on `status`: both `status` entries are
overwritten, the `kind` entry is kept. -/
theorem C15_replace_filter_witness :
    (sampleGroup.ReplaceFilter
        { ID := "new", Selection := "multi", Field := "status" }).Filters[0]? =
      some { ID := "new", Selection := "multi", Field := "status" } ∧
    (sampleGroup.ReplaceFilter
        { ID := "new", Selection := "multi", Field := "status" }).Filters[1]? =
      some { ID := "k1", Selection := "single", Logic := "or", Field := "kind" } ∧
    (sampleGroup.ReplaceFilter
        { ID := "new", Selection := "multi", Field := "status" }).Filters[2]? =
      some { ID := "new", Selection := "multi", Field := "status" } :=
  ⟨((C15_replace_filter sampleGroup
        { ID := "new", Selection := "multi", Field := "status" }).2.1 0
      { ID := "s1", Selection := "multi", Logic := "or", Field := "status" }
      (by decide)).1 (by decide),
   ((C15_replace_filter sampleGroup
        { ID := "new", Selection := "multi", Field := "status" }).2.1 1
      { ID := "k1", Selection := "single", Logic := "or", Field := "kind" }
      (by decide)).2 (by decide),
   ((C15_replace_filter sampleGroup
        { ID := "new", Selection := "multi", Field := "status" }).2.1 2
      { ID := "s2", Selection := "text", Logic := "and", Field := "status", Static := true }
      (by decide)).1 (by decide)⟩

/-- C16 (lookup accessors). `GetFilter` returns the first entry of `Filters` whose `Field`
is the given name, and the zero-value `Filter` when no entry has it; `GetFacet` returns the
first entry of `Facets` whose `Label` is the given label, and the zero-value `Facet` when
no entry has it. Both are total and return a value only, never an error. -/
theorem C16_lookup_accessors (g : FilterGroup) (fieldName : GoString) (f : Filter)
    (label : GoString) :
    (∀ pre fil post, g.Filters = pre ++ fil :: post → fil.Field = fieldName →
      (∀ x ∈ pre, x.Field ≠ fieldName) → g.GetFilter fieldName = fil) ∧
    ((∀ x ∈ g.Filters, x.Field ≠ fieldName) → g.GetFilter fieldName = {}) ∧
    (∀ pre facet post, f.Facets = pre ++ facet :: post → facet.Label = label →
      (∀ x ∈ pre, x.Label ≠ label) → f.GetFacet label = facet) ∧
    ((∀ x ∈ f.Facets, x.Label ≠ label) → f.GetFacet label = {}) := by
  refine ⟨?_, ?_, ?_, ?_⟩
  · intro pre fil post hfs hfil hpre
    have hfind : g.Filters.find? (fun fil => decide (fil.Field = fieldName)) = some fil := by
      rw [hfs]
      clear hfs
      induction pre with
      | nil => simp only [List.nil_append, List.find?_cons, hfil, decide_True]
      | cons a t ih =>
        have ha : a.Field ≠ fieldName := hpre a (List.mem_cons_self _ _)
        simp only [List.cons_append, List.find?_cons, ha, decide_False]
        exact ih (fun x hx => hpre x (List.mem_cons_of_mem _ hx))
    simp only [FilterGroup.GetFilter, hfind]
  · intro hno
    have hfind : g.Filters.find? (fun fil => decide (fil.Field = fieldName)) = none := by
      rw [List.find?_eq_none]
      intro x hx
      simp only [hno x hx, decide_False, Bool.false_eq_true, not_false_eq_true]
    simp only [FilterGroup.GetFilter, hfind]
  · intro pre facet post hfs hfac hpre
    have hfind : f.Facets.find? (fun facet => decide (facet.Label = label)) = some facet := by
      rw [hfs]
      clear hfs
      induction pre with
      | nil => simp only [List.nil_append, List.find?_cons, hfac, decide_True]
      | cons a t ih =>
        have ha : a.Label ≠ label := hpre a (List.mem_cons_self _ _)
        simp only [List.cons_append, List.find?_cons, ha, decide_False]
        exact ih (fun x hx => hpre x (List.mem_cons_of_mem _ hx))
    simp only [Filter.GetFacet, hfind]
  · intro hno
    have hfind : f.Facets.find? (fun facet => decide (facet.Label = label)) = none := by
      rw [List.find?_eq_none]
      intro x hx
      simp only [hno x hx, decide_False, Bool.false_eq_true, not_false_eq_true]
    simp only [Filter.GetFacet, hfind]

/-- C16 on the sample group: of its two filters on `status`, `GetFilter` returns the first,
and it returns the zero-value `Filter` for the absent field `owner`. -/
theorem C16_lookup_accessors_witness :
    sampleGroup.GetFilter ("status" : GoString) =
      { ID := "s1", Selection := "multi", Logic := "or", Field := "status" } ∧
    sampleGroup.GetFilter ("owner" : GoString) = {} :=
  ⟨(C16_lookup_accessors sampleGroup ("status" : GoString) {} []).1 []
      { ID := "s1", Selection := "multi", Logic := "or", Field := "status" }
      [{ ID := "k1", Selection := "single", Logic := "or", Field := "kind" },
       { ID := "s2", Selection := "text", Logic := "and", Field := "status", Static := true }]
      (by decide) (by decide) (by decide),
   (C16_lookup_accessors sampleGroup ("owner" : GoString) {} []).2.1 (by decide)⟩

/-- C17 (inter-parameter order independence). For every catalog and every two processing
orders of the same entries: `BuildFilterQuery` returns nil on the one exactly when it
returns nil on the other; and then, on a fresh accumulator, the sub-queries added are
position by position those of the entries with at least one value, each being the sub-query
of its own name and values under the catalog, so that the two lists of added sub-queries
are permutations of each other. -/
theorem C17_order_independence (tp : TimePkg) (filterMap : FilterMap)
    (l1 l2 : List (GoString × List GoString)) (hperm : l1.Perm l2) :
    ((BuildFilterQuery tp {} l1 filterMap).2 = .nil ↔
      (BuildFilterQuery tp {} l2 filterMap).2 = .nil) ∧
    ((BuildFilterQuery tp {} l1 filterMap).2 = .nil →
      List.Forall₂ (fun p bq => BuildFilterQuery_param tp filterMap p.1 p.2 = .ok bq)
        (l1.filter (fun p => decide (p.2 ≠ [])))
        (BuildFilterQuery tp {} l1 filterMap).1.filterClauses ∧
      List.Forall₂ (fun p bq => BuildFilterQuery_param tp filterMap p.1 p.2 = .ok bq)
        (l2.filter (fun p => decide (p.2 ≠ [])))
        (BuildFilterQuery tp {} l2 filterMap).1.filterClauses ∧
      List.Perm (BuildFilterQuery tp {} l1 filterMap).1.filterClauses
        (BuildFilterQuery tp {} l2 filterMap).1.filterClauses) := by
  have hiff : (subQueries tp filterMap l1).2 = .nil ↔ (subQueries tp filterMap l2).2 = .nil := by
    rw [subQueries_nil_iff, subQueries_nil_iff]
    constructor
    · intro h p hp
      exact h p (hperm.mem_iff.mpr hp)
    · intro h p hp
      exact h p (hperm.mem_iff.mp hp)
  have hmap : ∀ (ps : List (GoString × List GoString)) (subs : List FilterQuery),
      List.Forall₂ (fun p bq => BuildFilterQuery_param tp filterMap p.1 p.2 = .ok bq) ps subs →
      subs = ps.map (fun p =>
        match BuildFilterQuery_param tp filterMap p.1 p.2 with
        | .ok bq => bq
        | .error _ => {}
        | .panic => {}) := by
    intro ps subs hall
    induction hall with
    | nil => rfl
    | cons hq _ ih => simp only [List.map_cons, hq, ← ih]
  simp only [BuildFilterQuery_eq_subQueries, List.nil_append]
  refine ⟨hiff, ?_⟩
  intro h1
  have h2 := hiff.mp h1
  have a1 := subQueries_nil tp filterMap l1 h1
  have a2 := subQueries_nil tp filterMap l2 h2
  refine ⟨a1, a2, ?_⟩
  rw [hmap _ _ a1, hmap _ _ a2]
  exact (hperm.filter _).map _

/-- C17 on the entries `status=a` and `+priority=1` in both orders, with the sample
catalog: the two lists of added sub-queries are permutations of each other. -/
theorem C17_order_independence_witness :
    List.Perm
      (BuildFilterQuery sampleTime {}
        [(("status" : GoString), [("a" : GoString)]),
         (("+priority" : GoString), [("1" : GoString)])] sampleCatalog).1.filterClauses
      (BuildFilterQuery sampleTime {}
        [(("+priority" : GoString), [("1" : GoString)]),
         (("status" : GoString), [("a" : GoString)])] sampleCatalog).1.filterClauses :=
  ((C17_order_independence sampleTime sampleCatalog
      [(("status" : GoString), [("a" : GoString)]),
       (("+priority" : GoString), [("1" : GoString)])]
      [(("+priority" : GoString), [("1" : GoString)]),
       (("status" : GoString), [("a" : GoString)])]
      (List.Perm.swap _ _ _)).2 (by decide)).2.2

/-- C18 (no rollback on error). When `BuildFilterQuery` returns an error, it stopped at a
parameter with at least one value whose sub-query met that error; the accumulator is the one
given, with the sub-queries of the parameters with at least one value processed before the
failing one appended to its filter list in processing order, and nothing else: the other
clause lists and the name are unchanged and the sub-query of the failing parameter is not
added. -/
theorem C18_no_rollback (tp : TimePkg) (searchFilter : SearchFilter)
    (filters : List (GoString × List GoString)) (filterMap : FilterMap) (msg : GoString)
    (herr : (BuildFilterQuery tp searchFilter filters filterMap).2 = .err msg) :
    ∃ pre p post subs, filters = pre ++ p :: post ∧ p.2 ≠ [] ∧
      BuildFilterQuery_param tp filterMap p.1 p.2 = .error msg ∧
      List.Forall₂ (fun q bq => BuildFilterQuery_param tp filterMap q.1 q.2 = .ok bq)
        (pre.filter (fun q => decide (q.2 ≠ []))) subs ∧
      (BuildFilterQuery tp searchFilter filters filterMap).1 =
        { searchFilter with filterClauses := searchFilter.filterClauses ++ subs } := by
  rw [BuildFilterQuery_eq_subQueries] at herr ⊢
  obtain ⟨pre, p, post, hl, hp, hq, hall⟩ := subQueries_err tp filterMap filters msg herr
  exact ⟨pre, p, post, _, hl, hp, hq, hall, rfl⟩

/-- C18 on the sample catalog: `status=ok` is compiled, `kind=x` fails the call, and the
accumulator holds the sub-query of `status` only. -/
theorem C18_no_rollback_witness :
    ∃ pre p post subs,
      [(("status" : GoString), [("ok" : GoString)]),
       (("kind" : GoString), [("x" : GoString)]),
       (("zzz" : GoString), [("1" : GoString)])] = pre ++ p :: post ∧ p.2 ≠ [] ∧
      BuildFilterQuery_param sampleTime sampleCatalog p.1 p.2 =
        .error ("Unknown Selection: single" : GoString) ∧
      List.Forall₂
        (fun q bq => BuildFilterQuery_param sampleTime sampleCatalog q.1 q.2 = .ok bq)
        (pre.filter (fun q => decide (q.2 ≠ []))) subs ∧
      (BuildFilterQuery sampleTime {}
        [(("status" : GoString), [("ok" : GoString)]),
         (("kind" : GoString), [("x" : GoString)]),
         (("zzz" : GoString), [("1" : GoString)])] sampleCatalog).1 =
        { ({} : SearchFilter) with filterClauses := ({} : SearchFilter).filterClauses ++ subs } :=
  C18_no_rollback sampleTime {}
    [(("status" : GoString), [("ok" : GoString)]),
     (("kind" : GoString), [("x" : GoString)]),
     (("zzz" : GoString), [("1" : GoString)])] sampleCatalog
    ("Unknown Selection: single" : GoString) (by decide)

/-- C19 (type-assertion safety of the date branch). When every catalog filter of selection
`date` has a non-empty `Format`, `BuildFilterQuery` never panics: it ends with nil or an
error. Whenever it panics, some parameter resolves to a catalog filter of selection `date`
and empty `Format` and has a value that is non-empty after trimming. And a parameter that
names such a catalog filter and has such a value does make the call panic. -/
theorem C19_assertion_safety (tp : TimePkg) (searchFilter : SearchFilter)
    (filters : List (GoString × List GoString)) (filterMap : FilterMap) :
    ((∀ k f, filterMap k = some f →
        ¬ (f.Selection = ("date" : GoString) ∧ f.Format = [])) →
      (BuildFilterQuery tp searchFilter filters filterMap).2 ≠ .panic ∧
      ((BuildFilterQuery tp searchFilter filters filterMap).2 = .nil ∨
        ∃ msg, (BuildFilterQuery tp searchFilter filters filterMap).2 = .err msg)) ∧
    ((BuildFilterQuery tp searchFilter filters filterMap).2 = .panic →
      ∃ p ∈ filters, ∃ f,
        filterMap (BuildFilterQuery_resolve filterMap p.1).2.1 = some f ∧
        f.Selection = ("date" : GoString) ∧ f.Format = [] ∧
        ∃ v ∈ p.2, strings.Trim v " " ≠ []) ∧
    (∀ k f v, strings.HasPrefix k "!" = false → filterMap k = some f →
      f.Selection = ("date" : GoString) → f.Format = [] → strings.Trim v " " ≠ [] →
      (BuildFilterQuery tp searchFilter [(k, [v])] filterMap).2 = .panic) := by
  have hpanic : (BuildFilterQuery tp searchFilter filters filterMap).2 = .panic →
      ∃ p ∈ filters, ∃ f,
        filterMap (BuildFilterQuery_resolve filterMap p.1).2.1 = some f ∧
        f.Selection = ("date" : GoString) ∧ f.Format = [] ∧
        ∃ v ∈ p.2, strings.Trim v " " ≠ [] := by
    intro h
    rw [BuildFilterQuery_eq_subQueries] at h
    obtain ⟨p, hp, -, hq⟩ := subQueries_panic tp filterMap filters h
    rw [BuildFilterQuery_param_eq] at hq
    have hvq : valueQueries tp (BuildFilterQuery_resolve filterMap p.1).2.2 p.2 = .panic := by
      cases hv : valueQueries tp (BuildFilterQuery_resolve filterMap p.1).2.2 p.2 with
      | ok qs =>
        rw [hv] at hq
        cases hq
      | error m =>
        rw [hv] at hq
        cases hq
      | panic => rfl
    obtain ⟨hsel, hfmt, v, hv, hne⟩ := valueQueries_panic tp _ _ hvq
    have hres := resolve_filter_eq filterMap p.1
    cases hcat : filterMap (BuildFilterQuery_resolve filterMap p.1).2.1 with
    | some f =>
      rw [hcat] at hres
      simp only [] at hres
      rw [hres] at hsel hfmt
      exact ⟨p, hp, f, hcat, hsel, hfmt, v, hv, hne⟩
    | none =>
      exfalso
      rw [hcat] at hres
      simp only [] at hres
      have h5 := buildCustomQuery_selection (BuildFilterQuery_resolve filterMap p.1).2.1
      rw [← hres, hsel] at h5
      revert h5
      decide
  refine ⟨?_, hpanic, ?_⟩
  · intro hcat
    have hno : (BuildFilterQuery tp searchFilter filters filterMap).2 ≠ .panic := by
      intro h
      obtain ⟨p, -, f, hf, hsel, hfmt, -⟩ := hpanic h
      exact hcat _ f hf ⟨hsel, hfmt⟩
    refine ⟨hno, ?_⟩
    cases hout : (BuildFilterQuery tp searchFilter filters filterMap).2 with
    | nil => exact Or.inl rfl
    | err msg => exact Or.inr ⟨msg, rfl⟩
    | panic => exact absurd hout hno
  · intro k f v hk hf hsel hfmt hv
    have hres : BuildFilterQuery_resolve filterMap k = (false, k, f) := by
      simp only [BuildFilterQuery_resolve, hk, Bool.false_eq_true, if_false, hf]
    have hvq : valueQueries tp f [v] = .panic := by
      simp only [valueQueries, hv, if_false,
        BuildFilterQuery_value_date_plain tp f _ hsel hfmt]
    rw [BuildFilterQuery_single tp searchFilter filterMap k [v] (by simp),
      BuildFilterQuery_param_eq, hres]
    simp only [hvq, Step.map]

/-- C19 on the sample catalog, whose `date` entry has a layout: the call on `end_date` does
not panic; and on the catalog whose `day` entry has the selection `date` without a layout,
the call on `day=2017-01-27` panics. -/
theorem C19_assertion_safety_witness :
    (BuildFilterQuery sampleTime {}
        [(("end_date" : GoString), [("2017-01-27" : GoString)])] sampleCatalog).2 ≠ .panic ∧
    (BuildFilterQuery sampleTime {}
        [(("day" : GoString), [("2017-01-27" : GoString)])] plainDateCatalog).2 = .panic :=
  ⟨((C19_assertion_safety sampleTime {}
        [(("end_date" : GoString), [("2017-01-27" : GoString)])] sampleCatalog).1
      sampleCatalog_dates_have_format).1,
   (C19_assertion_safety sampleTime {} [] plainDateCatalog).2.2 ("day" : GoString)
      { Selection := "date", Logic := "or", Field := "day" } ("2017-01-27" : GoString)
      (by decide) (by decide) (by decide) (by decide) (by decide)⟩

/-- C20 (unknown parameters never fail). When no parameter name, once its leading `!`
characters are removed, is a key of the catalog, `BuildFilterQuery` returns nil, so it
neither fails nor panics; this is so for every parameter mapping on the empty catalog; and
`buildCustomQuery` only yields a `Selection` among multi, lte, gte, regex, wildcard. -/
theorem C20_unknown_parameters_never_fail (tp : TimePkg) (searchFilter : SearchFilter)
    (filters : List (GoString × List GoString)) (filterMap : FilterMap) :
    ((∀ p ∈ filters, filterMap (BuildFilterQuery_resolve filterMap p.1).2.1 = none) →
      (BuildFilterQuery tp searchFilter filters filterMap).2 = .nil) ∧
    (BuildFilterQuery tp searchFilter filters emptyCatalog).2 = .nil ∧
    (∀ name, (buildCustomQuery name).Selection ∈
      ([("multi" : GoString), "lte", "gte", "regex", "wildcard"] : List GoString)) := by
  have hmain : ∀ fm : FilterMap,
      (∀ p ∈ filters, fm (BuildFilterQuery_resolve fm p.1).2.1 = none) →
      (BuildFilterQuery tp searchFilter filters fm).2 = .nil := by
    intro fm habs
    rw [BuildFilterQuery_eq_subQueries]
    simp only []
    rw [subQueries_nil_iff]
    intro p hp _
    exact BuildFilterQuery_param_absent tp fm p.1 p.2 (habs p hp)
  exact ⟨hmain filterMap, hmain emptyCatalog (fun _ _ => rfl), buildCustomQuery_selection⟩

/-- C20 on the sample catalog and the unknown parameters `!owner~` and `+size>`. -/
theorem C20_unknown_parameters_never_fail_witness :
    (BuildFilterQuery sampleTime {}
        [(("!owner~" : GoString), [("^a.*" : GoString)]),
         (("+size>" : GoString), [("10" : GoString), ("20" : GoString)])]
        sampleCatalog).2 = .nil :=
  (C20_unknown_parameters_never_fail sampleTime {}
    [(("!owner~" : GoString), [("^a.*" : GoString)]),
     (("+size>" : GoString), [("10" : GoString), ("20" : GoString)])] sampleCatalog).1
    (by decide)

end EsFilterQuery
